import Mathlib

/-!
Verification of the VibeCheck recommendation-cascade engine (src/app.py).

The development shallowly embeds the pure core of the Flask application:
track keys, the unique-track merger, the artist-name normalizer, the
four-tier recommendation cascade of the `identify` endpoint, the
exclusion-aware variant of the `recommend` endpoint, the per-artist
fallback helper `_lastfm_get_similar_via_artist`, and the payload
processing of `_lastfm_get_similar`.

Remote calls are modelled by their observable outcome: a value, a raised
`requests.RequestException` (which the cascade catches at tier
boundaries), or any other raised exception (which propagates and aborts
the request).  String handling mirrors Python `str.strip`, `str.lower`,
`in`, `find` and `split(sep, 1)` on the character (code-point) level.
-/

/-- Python `str.strip()`: drop whitespace from both ends of a string. -/
def pyStrip (s : String) : String :=
  String.mk (((s.data.dropWhile Char.isWhitespace).reverse.dropWhile Char.isWhitespace).reverse)

/-- Python `str.lower()`: lower-case every character. -/
def pyLower (s : String) : String :=
  String.mk (s.data.map Char.toLower)

/-- Characters strictly before the first occurrence of `pat` in `cs`,
or `none` when `pat` does not occur.  This is at once Python's
`pat in s` test (`isSome`) and `s.find(pat)` / `s.split(pat, 1)[0]`. -/
def findBefore (pat : List Char) : List Char → Option (List Char)
  | [] => if pat.isEmpty then some [] else none
  | c :: cs =>
    if pat.isPrefixOf (c :: cs) then some []
    else Option.map (fun p => c :: p) (findBefore pat cs)

/-- One pass of the separator loop of `_normalize_lastfm_artist`:
`if sep in s: s = s.split(sep, 1)[0].strip()`. -/
def splitBefore (sep : String) (s : String) : String :=
  match findBefore sep.data s.data with
  | none => s
  | some p => pyStrip (String.mk p)

/-- One pass of the featuring-token loop of `_normalize_lastfm_artist`:
`if token in s.lower(): s = s[: s.lower().find(token)].strip()`. -/
def featTruncate (token : String) (s : String) : String :=
  match findBefore token.data (pyLower s).data with
  | none => s
  | some p => pyStrip (String.mk (s.data.take p.length))

/-- `_normalize_lastfm_artist` from src/app.py: strip, cut at the first
occurrence of each separator in priority order, then cut before each
featuring token (matched case-insensitively). -/
def normalizeLastfmArtist (artist : String) : String :=
  let s0 := pyStrip artist
  let s1 := ["/", "&", ",", ";"].foldl (fun s sep => splitBefore sep s) s0
  [" feat. ", " feat ", " ft. ", " ft ", " featuring "].foldl
    (fun s tok => featTruncate tok s) s1

/-- A track dictionary as built by the Last.fm helpers: the four fields
`name`, `artist`, `url`, `match`; `none` models Python `None`. -/
structure Track where
  name : Option String
  artist : Option String
  url : Option String
  matchScore : Option String
deriving DecidableEq, Repr

/-- `_track_key` from src/app.py: `(artist or "").strip().lower()` paired
with `(name or "").strip().lower()`. -/
def trackKey (t : Track) : String × String :=
  (pyLower (pyStrip (t.artist.getD "")), pyLower (pyStrip (t.name.getD "")))

/-- Loop body of `_merge_unique_tracks`: walk `incoming`, stop once `out`
has reached `limit`, skip empty keys and keys already seen, append
otherwise (recording the new key as seen). -/
def mergeGo (limit : Nat) : List (String × String) → List Track → List Track → List Track
  | _, out, [] => out
  | seen, out, t :: ts =>
    if limit ≤ out.length then out
    else if trackKey t = ("", "") ∨ trackKey t ∈ seen then mergeGo limit seen out ts
    else mergeGo limit (trackKey t :: seen) (out ++ [t]) ts

/-- `_merge_unique_tracks(base, incoming, limit=limit)` from src/app.py:
the seen-set starts from the keys of `base`, and `base` itself is
returned unchanged in front of the merged suffix. -/
def mergeUniqueTracks (base incoming : List Track) (limit : Nat) : List Track :=
  mergeGo limit (base.map trackKey) base incoming

/-- Observable outcome of one remote Last.fm call, as seen by its caller:
a parsed value, a raised `requests.RequestException` (this class covers
transport errors, `raise_for_status`, and the `requests.HTTPError` the
helpers raise on an application-level `error` payload), or any other
raised exception (e.g. `AttributeError` / `TypeError` on an unexpected
payload shape), which no tier boundary catches. -/
inductive Fetch (α : Type) where
  | ok (val : α)
  | reqExc
  | otherExc
deriving DecidableEq, Repr

/-- A tier boundary of the cascade:
`try: x = fetch(...) except requests.RequestException: x = []`.
A `RequestException` is downgraded to the empty list; any other
exception propagates (modelled as `Except.error ()`). -/
def runFetch {α : Type} : Fetch (List α) → Except Unit (List α)
  | .ok xs => .ok xs
  | .reqExc => .ok []
  | .otherExc => .error ()

/-- Outcomes of the remote calls a single recommendation request makes:
`track.getTopTags`, `track.getSimilar`, the similar-artist helper, the
per-tag `tag.getTopTracks` calls, and `chart.getTopTracks`. -/
structure FetchEnv where
  topTags : Fetch (List String)
  fromTrack : Fetch (List Track)
  fromArtist : Fetch (List Track)
  fromTag : String → Fetch (List Track)
  fromChart : Fetch (List Track)

/-- Running state of the cascade: the accumulated `similar_tracks`, the
recorded `similar_sources`, and (a proof artifact of the control flow)
the tiers whose fetch was actually attempted, in order. -/
structure CascadeOut where
  tracks : List Track
  sources : List String
  attempted : List String
deriving DecidableEq, Repr

/-- One attempted tier of the cascade, given its (post-downgrade) fetched
list `ts`: if `ts` is non-empty the tier's label is appended to
`similar_sources` and `ts` is merged into the accumulator; an attempted
tier is always recorded in `attempted`. -/
def mergeStep (label : String) (ts : List Track) (L : Nat) (st : CascadeOut) : CascadeOut :=
  if ts.isEmpty then { st with attempted := st.attempted ++ [label] }
  else { tracks := mergeUniqueTracks st.tracks ts L,
         sources := st.sources ++ [label],
         attempted := st.attempted ++ [label] }

/-- The per-tag loop of the tag tier: for each tag, stop once the
tier-local accumulator has reached `L`; a per-tag `RequestException`
is skipped (`continue`), any other exception propagates. -/
def tagLoop (fetch : String → Fetch (List Track)) (L : Nat) :
    List String → List Track → Except Unit (List Track)
  | [], acc => .ok acc
  | tag :: rest, acc =>
    if L ≤ acc.length then .ok acc
    else
      match fetch tag with
      | .otherExc => .error ()
      | .reqExc => tagLoop fetch L rest acc
      | .ok fromTag => tagLoop fetch L rest (mergeUniqueTracks acc fromTag L)

/-- Stage 1 of the cascade: the up-front `track.getTopTags` fetch and the
exact-track tier (`track.getSimilar`), which is always attempted. -/
def stage1A (ttRes : Except Unit (List String)) (ftRes : Except Unit (List Track))
    (L : Nat) : Except Unit (List String × CascadeOut) :=
  match ttRes with
  | .error e => .error e
  | .ok topTags =>
    match ftRes with
    | .error e => .error e
    | .ok fromTrack => .ok (topTags, mergeStep "track.getSimilar" fromTrack L ⟨[], [], []⟩)

/-- Stage 2: the similar-artist tier, attempted only while the
accumulator is still below `L`. -/
def stage2A (prev : Except Unit (List String × CascadeOut))
    (faRes : Except Unit (List Track)) (L : Nat) : Except Unit (List String × CascadeOut) :=
  match prev with
  | .error e => .error e
  | .ok (topTags, st) =>
    if st.tracks.length < L then
      match faRes with
      | .error e => .error e
      | .ok fromArtist => .ok (topTags, mergeStep "artist.getSimilar" fromArtist L st)
    else .ok (topTags, st)

/-- Stage 3: the tag tier, attempted only while the accumulator is below
`L` and the fetched tag list is non-empty; its tier-local accumulator is
then treated like a fetched list. -/
def stage3A (prev : Except Unit (List String × CascadeOut))
    (fromTag : String → Fetch (List Track)) (L : Nat) : Except Unit (List String × CascadeOut) :=
  match prev with
  | .error e => .error e
  | .ok (topTags, st) =>
    if st.tracks.length < L ∧ topTags ≠ [] then
      match tagLoop fromTag L topTags [] with
      | .error e => .error e
      | .ok tagCollected => .ok (topTags, mergeStep "tag.getTopTracks" tagCollected L st)
    else .ok (topTags, st)

/-- Stage 4: the chart tier, attempted only while the accumulator is
below `chartGate` (`limit` in `identify`, `desired` in `recommend`). -/
def chartStepA (prev : Except Unit (List String × CascadeOut))
    (fcRes : Except Unit (List Track)) (L chartGate : Nat) : Except Unit CascadeOut :=
  match prev with
  | .error e => .error e
  | .ok (_, st) =>
    if st.tracks.length < chartGate then
      match fcRes with
      | .error e => .error e
      | .ok fromChart => .ok (mergeStep "chart.getTopTracks" fromChart L st)
    else .ok st

/-- The recommendation cascade shared by `identify` and `recommend`:
tags fetch, then the four tiers in order, merging against `L` and gating
the chart tier against `chartGate`. -/
def cascadeCore (env : FetchEnv) (L chartGate : Nat) : Except Unit CascadeOut :=
  let s1 := stage1A (runFetch env.topTags) (runFetch env.fromTrack) L
  let s2 := stage2A s1 (runFetch env.fromArtist) L
  let s3 := stage3A s2 env.fromTag L
  chartStepA s3 (runFetch env.fromChart) L chartGate

/-- The `similar_source` back-compat field:
`"merged" if len(s) > 1 else (s[0] if s else "none")`. -/
def similarSourceOf (sources : List String) : String :=
  if 1 < sources.length then "merged"
  else
    match sources with
    | [] => "none"
    | s :: _ => s

/-- The recommendation part of an `identify` response. -/
structure LastfmBlock where
  tracks : List Track
  sources : List String
  attempted : List String
  similarSource : String
deriving DecidableEq, Repr

/-- The recommendation flow of the `identify` endpoint: the cascade with
`limit = 5` used both as merge cap and chart gate. -/
def identifyCascade (env : FetchEnv) : Except Unit LastfmBlock :=
  (cascadeCore env 5 5).map
    (fun st => ⟨st.tracks, st.sources, st.attempted, similarSourceOf st.sources⟩)

/-- The final filter loop of `recommend`: drop tracks whose key is
excluded, and break as soon as `desired` tracks have been kept. -/
def filterExcludeGo (ex : List (String × String)) (desired : Nat) :
    List Track → List Track → List Track
  | acc, [] => acc
  | acc, t :: ts =>
    if trackKey t ∈ ex then filterExcludeGo ex desired acc ts
    else if desired ≤ acc.length + 1 then acc ++ [t]
    else filterExcludeGo ex desired (acc ++ [t]) ts

/-- Final pass of `recommend`: filter the cascade output against the
exclusion set, truncating to `desired`. -/
def filterExclude (ex : List (String × String)) (desired : Nat) (ts : List Track) : List Track :=
  filterExcludeGo ex desired [] ts

/-- Python `set.add`: a list kept duplicate-free so that its length is
the set's cardinality. -/
def insertKey (ks : List (String × String)) (k : String × String) : List (String × String) :=
  if k ∈ ks then ks else ks ++ [k]

/-- The exclusion-set construction of `recommend`: normalized keys of the
caller-supplied `exclude` entries (skipping entries whose two sides are
both empty), plus always the seed's own key. -/
def buildExcludeKeys (artist title : String) (rawExclude : List (String × String)) :
    List (String × String) :=
  let ks := rawExclude.foldl
    (fun ks ex =>
      let a := pyLower (pyStrip ex.1)
      let t := pyLower (pyStrip ex.2)
      if a ≠ "" ∨ t ≠ "" then insertKey ks (a, t) else ks) []
  insertKey ks (pyLower (pyStrip artist), pyLower (pyStrip title))

/-- The over-fetch cap of `recommend`:
`fetch_limit = desired + len(exclude_keys) + 10` with `desired = 5`. -/
def recommendFetchLimit (excludeKeys : List (String × String)) : Nat :=
  5 + excludeKeys.length + 10

/-- A `recommend` response: the pre-filter accumulator is exposed as
`preTracks` so that the final filter pass can be reasoned about. -/
structure RecommendOut where
  preTracks : List Track
  tracks : List Track
  sources : List String
  attempted : List String
  similarSource : String
deriving DecidableEq, Repr

/-- The recommendation flow of the `recommend` endpoint: the cascade
merged against `fetch_limit` with chart gate `desired = 5`, then the
exclusion filter truncated to `desired`. -/
def recommendCascade (env : FetchEnv) (excludeKeys : List (String × String)) :
    Except Unit RecommendOut :=
  (cascadeCore env (recommendFetchLimit excludeKeys) 5).map
    (fun st => ⟨st.tracks, filterExclude excludeKeys 5 st.tracks,
                st.sources, st.attempted, similarSourceOf st.sources⟩)

/-- The `recommend` endpoint after request parsing: `artist` and `title`
are stripped, then the exclusion set is built and the cascade runs. -/
def recommendFromRequest (env : FetchEnv) (artist title : String)
    (rawExclude : List (String × String)) : Except Unit RecommendOut :=
  recommendCascade env (buildExcludeKeys (pyStrip artist) (pyStrip title) rawExclude)

/-- An entry of the `artist.getSimilar` response: an artist name and a
match score (either possibly absent). -/
structure SimilarArtist where
  name : Option String
  matchScore : Option String
deriving DecidableEq, Repr

/-- A top track of an artist, as extracted from `artist.getTopTracks`. -/
structure TopTrack where
  name : Option String
  url : Option String
deriving DecidableEq, Repr

/-- Outcome of one per-artist `artist.getTopTracks` sub-request inside
`_lastfm_get_similar_via_artist`: a failure raised inside the
`requests.RequestException` class (the sub-request itself or its
`raise_for_status()`); a decoded payload of unexpected shape, on which
`tp_payload.get` raises `AttributeError` — not a `RequestException`; a
payload carrying an application-level `error` (skipped via
`continue`); or the coerced `toptracks.track` list. -/
inductive TopTrackResult where
  | fail
  | crash
  | errPayload
  | ok (topTracks : List TopTrack)

/-- The per-artist loop of `_lastfm_get_similar_via_artist`: skip
artists without a name; there is no try/except inside the loop, so a
sub-request raising a `RequestException` escapes the helper as such
and a malformed sub-payload raises `AttributeError` past even the tier
boundary; skip an `error` payload; otherwise append the artist's first
top track. -/
def viaArtistLoop (fetch : String → TopTrackResult) :
    List SimilarArtist → List Track → Fetch (List Track)
  | [], out => .ok out
  | a :: rest, out =>
    match a.name with
    | none => viaArtistLoop fetch rest out
    | some n =>
      if n = "" then viaArtistLoop fetch rest out
      else
        match fetch n with
        | .fail => .reqExc
        | .crash => .otherExc
        | .errPayload => viaArtistLoop fetch rest out
        | .ok [] => viaArtistLoop fetch rest out
        | .ok (t :: _) =>
          viaArtistLoop fetch rest
            (out ++ [{ name := t.name, artist := some n, url := t.url,
                       matchScore := a.matchScore }])

/-- `_lastfm_get_similar_via_artist` after its own payload parse: loop
over the first `limit` similar artists. -/
def lastfmGetSimilarViaArtist (artists : List SimilarArtist)
    (fetch : String → TopTrackResult) (limit : Nat) : Fetch (List Track) :=
  viaArtistLoop fetch (artists.take limit) []

/-- A JSON value as produced by `resp.json()`. -/
inductive Json where
  | null
  | bool (b : Bool)
  | num (n : Int)
  | str (s : String)
  | arr (items : List Json)
  | obj (fields : List (String × Json))

/-- Python `dict.get(k)` on a JSON object's fields. -/
def jsonLookup (fields : List (String × Json)) (k : String) : Option Json :=
  (fields.find? (fun p => p.1 == k)).map Prod.snd

/-- Python `"error" == elem` for a list element of a JSON payload. -/
def isErrorStr : Json → Bool
  | .str s => s == "error"
  | _ => false

/-- Python `"error" in s` on a string payload: substring test. -/
def hasErrorSubstr (s : String) : Bool :=
  (findBefore "error".data s.data).isSome

/-- The dictionary `_lastfm_get_similar` builds per track item:
`{name, artist, url, match}` with the artist taken from a nested
`{"name": ...}` object when present.  A non-dict item crashes on
`t.get` (`AttributeError`). -/
def mapItem : Json → Fetch Json
  | .obj fs =>
    let artistRaw := (jsonLookup fs "artist").getD .null
    let artistVal :=
      match artistRaw with
      | .obj afs => (jsonLookup afs "name").getD .null
      | other => other
    .ok (.obj [("name", (jsonLookup fs "name").getD .null),
               ("artist", artistVal),
               ("url", (jsonLookup fs "url").getD .null),
               ("match", (jsonLookup fs "match").getD .null)])
  | _ => .otherExc

/-- The item loop of `_lastfm_get_similar` over the already-truncated
track list. -/
def mapItemsGo : List Json → Fetch (List Json)
  | [] => .ok []
  | j :: js =>
    match mapItem j, mapItemsGo js with
    | .ok t, .ok ts => .ok (t :: ts)
    | .ok _, .reqExc => .reqExc
    | .ok _, .otherExc => .otherExc
    | .reqExc, _ => .reqExc
    | .otherExc, _ => .otherExc

/-- The payload processing of `_lastfm_get_similar`, given the decoded
JSON: `"error" in payload` (a `TypeError` on non-container payloads, a
raised `requests.HTTPError` when present), then
`payload.get("similartracks", {}).get("track", [])` (an
`AttributeError` on any non-dict along the way), the
singular-or-list coercion, truncation to `limit`, and the item loop. -/
def parseSimilarTracks (payload : Json) (limit : Nat) : Fetch (List Json) :=
  match payload with
  | .null | .bool _ | .num _ => .otherExc
  | .str s => if hasErrorSubstr s then .reqExc else .otherExc
  | .arr items => if items.any isErrorStr then .reqExc else .otherExc
  | .obj fields =>
    if (jsonLookup fields "error").isSome then .reqExc
    else
      match (jsonLookup fields "similartracks").getD (Json.obj []) with
      | .obj fields2 =>
        match (jsonLookup fields2 "track").getD (Json.arr []) with
        | .obj f => mapItemsGo ([Json.obj f].take limit)
        | .arr items => mapItemsGo (items.take limit)
        | .str s => if s = "" ∨ limit = 0 then .ok [] else .otherExc
        | _ => .otherExc
      | _ => .otherExc

/-- The invariant the cascade maintains on its accumulator. -/
def cascadeInv (L : Nat) (st : CascadeOut) : Prop :=
  ((st.tracks.map trackKey).Nodup) ∧ st.tracks.length ≤ L

/-- No remote call of the request raises anything outside
`requests.RequestException`. -/
def FetchEnv.noCrash (env : FetchEnv) : Prop :=
  env.topTags ≠ .otherExc ∧ env.fromTrack ≠ .otherExc ∧ env.fromArtist ≠ .otherExc ∧
    env.fromChart ≠ .otherExc ∧ ∀ tag, env.fromTag tag ≠ .otherExc

/-- A track used to exhibit merger behaviour on degenerate accumulators. -/
def c1Track : Track := ⟨some "a", some "x", none, none⟩

/-- Two distinct valid tracks for evaluating the merge invariant. -/
def w1TrackA : Track := ⟨some "Song A", some "Artist A", none, none⟩

/-- Second concrete track for the merge-invariant evaluation. -/
def w1TrackB : Track := ⟨some "Song B", some "Artist B", none, none⟩

/-- Five tracks with pairwise-distinct, non-empty keys: a full
exact-track tier response. -/
def w2Tracks : List Track :=
  [⟨some "S1", some "A1", none, some "0.9"⟩, ⟨some "S2", some "A2", none, some "0.8"⟩,
   ⟨some "S3", some "A3", none, some "0.7"⟩, ⟨some "S4", some "A4", none, some "0.6"⟩,
   ⟨some "S5", some "A5", none, some "0.5"⟩]

/-- Environment whose exact-track tier alone already fills the limit. -/
def w2Env : FetchEnv :=
  { topTags := .ok ["pop"], fromTrack := .ok w2Tracks,
    fromArtist := .ok [⟨some "X", some "AX", none, none⟩],
    fromTag := fun _ => .ok [⟨some "Y", some "AY", none, none⟩],
    fromChart := .ok [⟨some "Z", some "AZ", none, none⟩] }

/-- Eight tracks with pairwise-distinct, non-empty keys: an unfiltered
8-track cascade result. -/
def w3Tracks : List Track :=
  [⟨some "T1", some "B1", none, none⟩, ⟨some "T2", some "B2", none, none⟩,
   ⟨some "T3", some "B3", none, none⟩, ⟨some "T4", some "B4", none, none⟩,
   ⟨some "T5", some "B5", none, none⟩, ⟨some "T6", some "B6", none, none⟩,
   ⟨some "T7", some "B7", none, none⟩, ⟨some "T8", some "B8", none, none⟩]

/-- The keys of the top 3 tracks of `w3Tracks`, as an exclusion set. -/
def w3Ex : List (String × String) := [("b1", "t1"), ("b2", "t2"), ("b3", "t3")]

/-- Environment delivering `w3Tracks` from the exact-track tier. -/
def w3Env : FetchEnv :=
  { topTags := .ok [], fromTrack := .ok w3Tracks, fromArtist := .ok [],
    fromTag := fun _ => .ok [], fromChart := .ok [] }

/-- A recommendable track distinct from the seed used in the C4 witness. -/
def w4Track : Track := ⟨some "Other Song", some "Other Artist", none, some "0.5"⟩

/-- Environment whose exact-track tier returns one non-seed track. -/
def w4Env : FetchEnv :=
  { topTags := .ok [], fromTrack := .ok [w4Track], fromArtist := .ok [],
    fromTag := fun _ => .ok [], fromChart := .ok [] }

/-- Per-artist top-track outcomes: one artist fails at transport level,
every other artist resolves to a top track. -/
def c5Fetch : String → TopTrackResult := fun n =>
  if n = "Artist One" then .fail else .ok [⟨some "Song Two", some "url2"⟩]

/-- Per-artist top-track outcomes: one artist yields an `error` payload,
every other artist resolves to a top track. -/
def w5Fetch : String → TopTrackResult := fun n =>
  if n = "Bad Artist" then .errPayload else .ok [⟨some "Good Song", some "urlg"⟩]

/-- An artist whose top-track lookup returns an `error` payload. -/
def w5Bad : SimilarArtist := ⟨some "Bad Artist", some "0.9"⟩

/-- An artist whose top-track lookup succeeds. -/
def w5Good : SimilarArtist := ⟨some "Good Artist", some "0.8"⟩

/-- Environment in which every remote call succeeds with an empty
result. -/
def w6Env : FetchEnv :=
  { topTags := .ok [], fromTrack := .ok [], fromArtist := .ok [],
    fromTag := fun _ => .ok [], fromChart := .ok [] }

/-- Environment whose tag tier fetch returns a non-empty raw list all of
whose tracks have the empty key. -/
def c7Env : FetchEnv :=
  { topTags := .ok ["rock"], fromTrack := .ok [], fromArtist := .ok [],
    fromTag := fun _ => .ok [⟨some "", some "", none, none⟩], fromChart := .ok [] }

/-- The response block `identify` produces under `c7Env`. -/
def c7Block : LastfmBlock :=
  ⟨[], [], ["track.getSimilar", "artist.getSimilar", "tag.getTopTracks",
    "chart.getTopTracks"], "none"⟩

/-- A single-track exact-tier environment for the source-recording
witness. -/
def w7Track : Track := ⟨some "Hit", some "Star", none, none⟩

/-- Environment for the source-recording witness: the similar-artist
tier returns exactly the track the exact-track tier already
accumulated, so its whole raw output is a duplicate. -/
def w7Env : FetchEnv :=
  { topTags := .ok [], fromTrack := .ok [w7Track], fromArtist := .ok [w7Track],
    fromTag := fun _ => .ok [], fromChart := .ok [] }

/-- A track for the idempotence witness. -/
def w8Track : Track := ⟨some "Loop", some "Band", none, none⟩

/-- Environment for the similar-source-field witness. -/
def w10Env : FetchEnv :=
  { topTags := .ok [], fromTrack := .ok [], fromArtist := .ok [],
    fromTag := fun _ => .ok [], fromChart := .ok [] }

/-- The response `recommend` produces under `w4Env` for the seed
("Seed Artist", "Seed Song") with an empty exclude list. -/
def w4Out : RecommendOut :=
  ⟨[w4Track], [w4Track], ["track.getSimilar"],
   ["track.getSimilar", "artist.getSimilar", "chart.getTopTracks"], "track.getSimilar"⟩

/-- The block `identify` produces under `w7Env`: the all-duplicates
similar-artist tier contributes no track but is still recorded. -/
def w7Block : LastfmBlock :=
  ⟨[w7Track], ["track.getSimilar", "artist.getSimilar"],
   ["track.getSimilar", "artist.getSimilar", "chart.getTopTracks"], "merged"⟩

/-- Environment whose exact-track tier raises outside the
`RequestException` class, as a malformed payload shape does. -/
def c6Env : FetchEnv :=
  { topTags := .ok [], fromTrack := .otherExc, fromArtist := .ok [],
    fromTag := fun _ => .ok [], fromChart := .ok [] }

example : normalizeLastfmArtist "Calvin Harris feat. Rihanna" = "Calvin Harris" := by decide

example : normalizeLastfmArtist "A & B / C" = "A" := by decide

example : normalizeLastfmArtist "  The Beatles " = "The Beatles" := by decide

example :
    trackKey ⟨some "Let It Be", some "  The Beatles ", none, none⟩ =
      trackKey ⟨some "let it be", some "the beatles", none, none⟩ := by decide

example :
    parseSimilarTracks
      (Json.obj [("similartracks",
        Json.obj [("track", Json.arr [Json.obj [("name", Json.str "T"),
          ("artist", Json.obj [("name", Json.str "A")]), ("url", Json.str "u"),
          ("match", Json.str "0.9")]])])]) 5 =
      Fetch.ok [Json.obj [("name", Json.str "T"), ("artist", Json.str "A"),
        ("url", Json.str "u"), ("match", Json.str "0.9")]] := rfl

example : parseSimilarTracks (Json.arr []) 5 = Fetch.otherExc := rfl

example : parseSimilarTracks (Json.obj [("error", Json.num 6)]) 5 = Fetch.reqExc := rfl

theorem mergeGo_eq_append (limit : Nat) :
    ∀ (ts : List Track) (seen : List (String × String)) (out : List Track),
      ∃ S, mergeGo limit seen out ts = out ++ S ∧ S.Sublist ts := by
  intro ts
  induction ts with
  | nil => intro seen out; exact ⟨[], by simp [mergeGo], List.Sublist.refl []⟩
  | cons t ts ih =>
    intro seen out
    by_cases hlen : limit ≤ out.length
    · exact ⟨[], by simp [mergeGo, hlen], by simp⟩
    · by_cases hskip : trackKey t = ("", "") ∨ trackKey t ∈ seen
      · obtain ⟨S, hS, hsub⟩ := ih seen out
        exact ⟨S, by simp [mergeGo, hlen, hskip, hS], hsub.cons t⟩
      · obtain ⟨S, hS, hsub⟩ := ih (trackKey t :: seen) (out ++ [t])
        refine ⟨t :: S, ?_, hsub.cons₂ t⟩
        simp [mergeGo, hlen, hskip, hS]

theorem mergeGo_all_seen (limit : Nat) :
    ∀ (ts : List Track) (seen : List (String × String)) (out : List Track),
      (∀ t ∈ ts, trackKey t = ("", "") ∨ trackKey t ∈ seen) →
      mergeGo limit seen out ts = out := by
  intro ts
  induction ts with
  | nil => intro seen out _; rfl
  | cons t ts ih =>
    intro seen out h
    by_cases hlen : limit ≤ out.length
    · simp [mergeGo, hlen]
    · have hskip := h t (by simp)
      simp [mergeGo, hlen, hskip, ih seen out (fun t' ht' => h t' (by simp [ht']))]

theorem mergeGo_nodup_len (limit : Nat) :
    ∀ (ts : List Track) (seen : List (String × String)) (out : List Track),
      (out.map trackKey).Nodup → (∀ k ∈ out.map trackKey, k ∈ seen) →
      ((mergeGo limit seen out ts).map trackKey).Nodup ∧
        (mergeGo limit seen out ts).length ≤ max out.length limit := by
  intro ts
  induction ts with
  | nil =>
    intro seen out h1 _
    exact ⟨by simpa [mergeGo] using h1, by simp [mergeGo, Nat.le_max_left]⟩
  | cons t ts ih =>
    intro seen out h1 h2
    by_cases hlen : limit ≤ out.length
    · exact ⟨by simpa [mergeGo, hlen] using h1, by simp [mergeGo, hlen, Nat.le_max_left]⟩
    · by_cases hskip : trackKey t = ("", "") ∨ trackKey t ∈ seen
      · simpa [mergeGo, hlen, hskip] using ih seen out h1 h2
      · push_neg at hskip
        have hlt : out.length < limit := lt_of_not_le hlen
        have hnotin : trackKey t ∉ out.map trackKey := fun hmem => hskip.2 (h2 _ hmem)
        have h1' : ((out ++ [t]).map trackKey).Nodup := by
          simp only [List.map_append, List.map_cons, List.map_nil, List.nodup_append]
          exact ⟨h1, List.nodup_singleton _, by simpa [List.Disjoint] using hnotin⟩
        have h2' : ∀ k ∈ (out ++ [t]).map trackKey, k ∈ trackKey t :: seen := by
          intro k hk
          simp only [List.map_append, List.map_cons, List.map_nil, List.mem_append,
            List.mem_singleton] at hk
          rcases hk with hk | hk
          · exact List.mem_cons_of_mem _ (h2 k hk)
          · simp [hk]
        obtain ⟨hN, hL⟩ := ih (trackKey t :: seen) (out ++ [t]) h1' h2'
        have hmax1 : max (out ++ [t]).length limit = limit := by
          simp only [List.length_append, List.length_cons, List.length_nil]
          omega
        have hmax0 : max out.length limit = limit := by omega
        refine ⟨?_, ?_⟩
        · simpa [mergeGo, hlen, hskip.1, hskip.2] using hN
        · have : (mergeGo limit (trackKey t :: seen) (out ++ [t]) ts).length ≤ limit := by
            omega
          simpa [mergeGo, hlen, hskip.1, hskip.2, hmax0] using this

theorem mergeGo_fresh (limit : Nat) :
    ∀ (ts : List Track) (seen : List (String × String)) (out : List Track),
      (ts.map trackKey).Nodup →
      (∀ t ∈ ts, trackKey t ≠ ("", "") ∧ trackKey t ∉ seen) →
      mergeGo limit seen out ts = out ++ ts.take (limit - out.length) := by
  intro ts
  induction ts with
  | nil => intro seen out _ _; simp [mergeGo]
  | cons t ts ih =>
    intro seen out hnd h
    by_cases hlen : limit ≤ out.length
    · have h0 : limit - out.length = 0 := Nat.sub_eq_zero_of_le hlen
      simp [mergeGo, hlen, h0]
    · have hval := h t (by simp)
      have hlt : out.length < limit := lt_of_not_le hlen
      have hhead : trackKey t ∉ ts.map trackKey := by
        have := hnd
        simp only [List.map_cons, List.nodup_cons] at this
        exact this.1
      have hrec :=
        ih (trackKey t :: seen) (out ++ [t])
          (by simpa [List.nodup_cons] using hnd.of_cons)
          (by
            intro t' ht'
            refine ⟨(h t' (by simp [ht'])).1, ?_⟩
            simp only [List.mem_cons]
            push_neg
            refine ⟨fun heq => hhead ?_, (h t' (by simp [ht'])).2⟩
            exact heq ▸ List.mem_map_of_mem trackKey ht')
      have harith : limit - (out ++ [t]).length = limit - out.length - 1 := by
        simp only [List.length_append, List.length_cons, List.length_nil]
        omega
      have htake : (t :: ts).take (limit - out.length) =
          t :: ts.take (limit - out.length - 1) := by
        obtain ⟨k, hk⟩ : ∃ k, limit - out.length = k + 1 :=
          ⟨limit - out.length - 1, by omega⟩
        simp [hk]
      rw [htake]
      have hcond : ¬(trackKey t = ("", "") ∨ trackKey t ∈ seen) := by
        push_neg; exact hval
      simp [mergeGo, hlen, hval.1, hval.2, hrec, harith]
      omega

theorem mergeUnique_self (A : List Track) (limit : Nat) : mergeUniqueTracks A A limit = A :=
  mergeGo_all_seen limit A (A.map trackKey) A
    (fun _ ht => Or.inr (List.mem_map_of_mem trackKey ht))

theorem mergeUnique_sublist (base incoming : List Track) (limit : Nat) :
    ∃ S, mergeUniqueTracks base incoming limit = base ++ S ∧ S.Sublist incoming :=
  mergeGo_eq_append limit incoming (base.map trackKey) base

theorem mergeUnique_inv (base incoming : List Track) (limit : Nat)
    (h1 : (base.map trackKey).Nodup) (h2 : base.length ≤ limit) :
    ((mergeUniqueTracks base incoming limit).map trackKey).Nodup ∧
      (mergeUniqueTracks base incoming limit).length ≤ limit := by
  obtain ⟨hN, hL⟩ :=
    mergeGo_nodup_len limit incoming (base.map trackKey) base h1 (fun k hk => hk)
  exact ⟨hN, by simp only [mergeUniqueTracks]; omega⟩

theorem mergeUnique_fresh (ts : List Track) (limit : Nat)
    (hnd : (ts.map trackKey).Nodup)
    (hval : ∀ t ∈ ts, trackKey t ≠ ("", "")) :
    mergeUniqueTracks [] ts limit = ts.take limit := by
  have := mergeGo_fresh limit ts [] [] hnd (fun t ht => ⟨hval t ht, by simp⟩)
  simpa [mergeUniqueTracks] using this

theorem filterExcludeGo_not_excluded (ex : List (String × String)) (d : Nat) :
    ∀ (ts acc : List Track), (∀ t ∈ acc, trackKey t ∉ ex) →
      ∀ t ∈ filterExcludeGo ex d acc ts, trackKey t ∉ ex := by
  intro ts
  induction ts with
  | nil => intro acc hacc t ht; exact hacc t ht
  | cons t ts ih =>
    intro acc hacc u hu
    by_cases hex : trackKey t ∈ ex
    · exact ih acc hacc u (by simpa [filterExcludeGo, hex] using hu)
    · have hacc' : ∀ v ∈ acc ++ [t], trackKey v ∉ ex := by
        intro v hv
        rcases List.mem_append.mp hv with hv | hv
        · exact hacc v hv
        · simpa [List.mem_singleton.mp hv] using hex
      by_cases hbrk : d ≤ acc.length + 1
      · exact hacc' u (by simpa [filterExcludeGo, hex, hbrk] using hu)
      · exact ih (acc ++ [t]) hacc' u (by simpa [filterExcludeGo, hex, hbrk] using hu)

theorem filterExcludeGo_length (ex : List (String × String)) (d : Nat) :
    ∀ (ts acc : List Track), acc.length < d →
      (filterExcludeGo ex d acc ts).length ≤ d := by
  intro ts
  induction ts with
  | nil => intro acc h; simpa [filterExcludeGo] using Nat.le_of_lt h
  | cons t ts ih =>
    intro acc h
    by_cases hex : trackKey t ∈ ex
    · simpa [filterExcludeGo, hex] using ih acc h
    · by_cases hbrk : d ≤ acc.length + 1
      · simp only [filterExcludeGo, if_neg hex, if_pos hbrk, List.length_append,
          List.length_cons, List.length_nil]
        omega
      · have : (acc ++ [t]).length < d := by
          simp only [List.length_append, List.length_cons, List.length_nil]; omega
        simpa [filterExcludeGo, hex, hbrk] using ih (acc ++ [t]) this

theorem filterExcludeGo_append (ex : List (String × String)) (d : Nat) :
    ∀ (ts acc : List Track), ∃ S, filterExcludeGo ex d acc ts = acc ++ S ∧ S.Sublist ts := by
  intro ts
  induction ts with
  | nil => intro acc; exact ⟨[], by simp [filterExcludeGo], by simp⟩
  | cons t ts ih =>
    intro acc
    by_cases hex : trackKey t ∈ ex
    · obtain ⟨S, hS, hsub⟩ := ih acc
      exact ⟨S, by simpa [filterExcludeGo, hex] using hS, hsub.cons t⟩
    · by_cases hbrk : d ≤ acc.length + 1
      · exact ⟨[t], by simp [filterExcludeGo, hex, hbrk], by simp⟩
      · obtain ⟨S, hS, hsub⟩ := ih (acc ++ [t])
        refine ⟨t :: S, ?_, hsub.cons₂ t⟩
        simp only [filterExcludeGo, if_neg hex, if_neg hbrk, hS, List.append_assoc,
          List.singleton_append]

theorem filterExcludeGo_skip (ex : List (String × String)) (d : Nat) :
    ∀ (a ts acc : List Track), (∀ t ∈ a, trackKey t ∈ ex) →
      filterExcludeGo ex d acc (a ++ ts) = filterExcludeGo ex d acc ts := by
  intro a
  induction a with
  | nil => intro ts acc _; rfl
  | cons t a ih =>
    intro ts acc h
    have hex : trackKey t ∈ ex := h t (by simp)
    simp only [List.cons_append, filterExcludeGo, if_pos hex]
    exact ih ts acc (fun u hu => h u (by simp [hu]))

theorem filterExcludeGo_keepAll (ex : List (String × String)) :
    ∀ (b acc : List Track) (d : Nat), (∀ t ∈ b, trackKey t ∉ ex) →
      d = acc.length + b.length → filterExcludeGo ex d acc b = acc ++ b := by
  intro b
  induction b with
  | nil => intro acc d _ _; simp [filterExcludeGo]
  | cons t b ih =>
    intro acc d h hd
    have hex : trackKey t ∉ ex := h t (by simp)
    rcases b with _ | ⟨u, b'⟩
    · have hbrk : d ≤ acc.length + 1 := by simp at hd; omega
      simp [filterExcludeGo, hex, hbrk]
    · have hbrk : ¬ d ≤ acc.length + 1 := by
        simp only [List.length_cons] at hd; omega
      have hrec := ih (acc ++ [t]) d (fun v hv => h v (by simp [hv]))
        (by simp only [List.length_append, List.length_cons, List.length_nil] at hd ⊢; omega)
      rw [show acc ++ t :: u :: b' = acc ++ [t] ++ (u :: b') by simp, ← hrec]
      generalize (u :: b') = w
      simp [filterExcludeGo, hex, hbrk]

theorem mergeStep_sources (label : String) (ts : List Track) (L : Nat) (st : CascadeOut) :
    (mergeStep label ts L st).sources =
      st.sources ++ (if ts.isEmpty then [] else [label]) := by
  by_cases h : ts.isEmpty <;> simp [mergeStep, h]

theorem mergeStep_attempted (label : String) (ts : List Track) (L : Nat) (st : CascadeOut) :
    (mergeStep label ts L st).attempted = st.attempted ++ [label] := by
  by_cases h : ts.isEmpty <;> simp [mergeStep, h]

theorem mergeStep_tracks (label : String) (ts : List Track) (L : Nat) (st : CascadeOut) :
    (mergeStep label ts L st).tracks =
      if ts.isEmpty then st.tracks else mergeUniqueTracks st.tracks ts L := by
  by_cases h : ts.isEmpty <;> simp [mergeStep, h]

theorem mergeStep_inv (label : String) (ts : List Track) (L : Nat) (st : CascadeOut)
    (h : cascadeInv L st) : cascadeInv L (mergeStep label ts L st) := by
  by_cases he : ts.isEmpty
  · simpa [mergeStep, he, cascadeInv] using h
  · have := mergeUnique_inv st.tracks ts L h.1 h.2
    simpa [mergeStep, he, cascadeInv] using this

theorem stage1A_ok_inv {ttRes : Except Unit (List String)} {ftRes : Except Unit (List Track)}
    {L : Nat} {p : List String × CascadeOut} (h : stage1A ttRes ftRes L = .ok p) :
    ∃ tt ft, ttRes = .ok tt ∧ ftRes = .ok ft ∧
      p = (tt, mergeStep "track.getSimilar" ft L ⟨[], [], []⟩) := by
  cases ttRes with
  | error e => simp [stage1A] at h
  | ok tt =>
    cases ftRes with
    | error e => simp [stage1A] at h
    | ok ft => exact ⟨tt, ft, rfl, rfl, by simpa [stage1A] using h.symm⟩

theorem stage2A_ok_inv {prev : Except Unit (List String × CascadeOut)}
    {faRes : Except Unit (List Track)} {L : Nat} {p : List String × CascadeOut}
    (h : stage2A prev faRes L = .ok p) :
    ∃ tt st1, prev = .ok (tt, st1) ∧
      ((st1.tracks.length < L ∧
          ∃ fa, faRes = .ok fa ∧ p = (tt, mergeStep "artist.getSimilar" fa L st1)) ∨
        (¬ st1.tracks.length < L ∧ p = (tt, st1))) := by
  cases prev with
  | error e => simp [stage2A] at h
  | ok q =>
    obtain ⟨tt, st1⟩ := q
    refine ⟨tt, st1, rfl, ?_⟩
    by_cases hg : st1.tracks.length < L
    · cases faRes with
      | error e => simp [stage2A, hg] at h
      | ok fa => exact Or.inl ⟨hg, fa, rfl, by simpa [stage2A, hg] using h.symm⟩
    · exact Or.inr ⟨hg, by simpa [stage2A, hg] using h.symm⟩

theorem stage3A_ok_inv {prev : Except Unit (List String × CascadeOut)}
    {fromTag : String → Fetch (List Track)} {L : Nat} {p : List String × CascadeOut}
    (h : stage3A prev fromTag L = .ok p) :
    ∃ tt st2, prev = .ok (tt, st2) ∧
      ((st2.tracks.length < L ∧ tt ≠ [] ∧
          ∃ tc, tagLoop fromTag L tt [] = .ok tc ∧
            p = (tt, mergeStep "tag.getTopTracks" tc L st2)) ∨
        (¬ (st2.tracks.length < L ∧ tt ≠ []) ∧ p = (tt, st2))) := by
  cases prev with
  | error e => simp [stage3A] at h
  | ok q =>
    obtain ⟨tt, st2⟩ := q
    refine ⟨tt, st2, rfl, ?_⟩
    by_cases hg : st2.tracks.length < L ∧ tt ≠ []
    · rcases htc : tagLoop fromTag L tt [] with e | tc
      · rw [stage3A, if_pos hg, htc] at h
        simp at h
      · rw [stage3A, if_pos hg, htc] at h
        simp only [Except.ok.injEq] at h
        exact Or.inl ⟨hg.1, hg.2, tc, rfl, h.symm⟩
    · rw [stage3A, if_neg hg] at h
      simp only [Except.ok.injEq] at h
      exact Or.inr ⟨hg, h.symm⟩

theorem chartStepA_ok_inv {prev : Except Unit (List String × CascadeOut)}
    {fcRes : Except Unit (List Track)} {L chartGate : Nat} {st : CascadeOut}
    (h : chartStepA prev fcRes L chartGate = .ok st) :
    ∃ tt st3, prev = .ok (tt, st3) ∧
      ((st3.tracks.length < chartGate ∧
          ∃ fc, fcRes = .ok fc ∧ st = mergeStep "chart.getTopTracks" fc L st3) ∨
        (¬ st3.tracks.length < chartGate ∧ st = st3)) := by
  cases prev with
  | error e => simp [chartStepA] at h
  | ok q =>
    obtain ⟨tt, st3⟩ := q
    refine ⟨tt, st3, rfl, ?_⟩
    by_cases hg : st3.tracks.length < chartGate
    · cases fcRes with
      | error e => simp [chartStepA, hg] at h
      | ok fc => exact Or.inl ⟨hg, fc, rfl, by simpa [chartStepA, hg] using h.symm⟩
    · exact Or.inr ⟨hg, by simpa [chartStepA, hg] using h.symm⟩

theorem cascadeCore_inv {env : FetchEnv} {L chartGate : Nat} {st : CascadeOut}
    (h : cascadeCore env L chartGate = .ok st) : cascadeInv L st := by
  obtain ⟨tt, st3, h3, hc⟩ := chartStepA_ok_inv h
  obtain ⟨tt2, st2, h2, hs3⟩ := stage3A_ok_inv h3
  obtain ⟨tt1, st1, h1, hs2⟩ := stage2A_ok_inv h2
  obtain ⟨tt0, ft, _, _, hp⟩ := stage1A_ok_inv h1
  have hinit : cascadeInv L (⟨[], [], []⟩ : CascadeOut) := by
    constructor <;> simp [cascadeInv]
  have hst1 : cascadeInv L st1 := by
    have := mergeStep_inv "track.getSimilar" ft L ⟨[], [], []⟩ hinit
    have hp' : st1 = mergeStep "track.getSimilar" ft L ⟨[], [], []⟩ := by
      have := congrArg Prod.snd hp; simpa using this
    rwa [hp']
  have hst2 : cascadeInv L st2 := by
    rcases hs2 with ⟨_, fa, _, hpp⟩ | ⟨_, hpp⟩
    · have : st2 = mergeStep "artist.getSimilar" fa L st1 := by
        have := congrArg Prod.snd hpp; simpa using this
      rw [this]; exact mergeStep_inv _ _ _ _ hst1
    · have : st2 = st1 := by
        have := congrArg Prod.snd hpp; simpa using this
      rwa [this]
  have hst3 : cascadeInv L st3 := by
    rcases hs3 with ⟨_, _, tc, _, hpp⟩ | ⟨_, hpp⟩
    · have : st3 = mergeStep "tag.getTopTracks" tc L st2 := by
        have := congrArg Prod.snd hpp; simpa using this
      rw [this]; exact mergeStep_inv _ _ _ _ hst2
    · have : st3 = st2 := by
        have := congrArg Prod.snd hpp; simpa using this
      rwa [this]
  rcases hc with ⟨_, fc, _, hpp⟩ | ⟨_, hpp⟩
  · rw [hpp]; exact mergeStep_inv _ _ _ _ hst3
  · rwa [hpp]

theorem cascadeCore_shape {env : FetchEnv} {L chartGate : Nat} {st : CascadeOut}
    (h : cascadeCore env L chartGate = .ok st) :
    ∃ ft s2 s3 s4 a2 a3 a4,
      runFetch env.fromTrack = .ok ft ∧
      st.sources = (if ft.isEmpty then [] else ["track.getSimilar"]) ++ s2 ++ s3 ++ s4 ∧
      st.attempted = ["track.getSimilar"] ++ a2 ++ a3 ++ a4 ∧
      s2.Sublist ["artist.getSimilar"] ∧ s3.Sublist ["tag.getTopTracks"] ∧
      s4.Sublist ["chart.getTopTracks"] ∧ a2.Sublist ["artist.getSimilar"] ∧
      a3.Sublist ["tag.getTopTracks"] ∧ a4.Sublist ["chart.getTopTracks"] := by
  obtain ⟨tt, st3, h3, hc⟩ := chartStepA_ok_inv h
  obtain ⟨tt2, st2, h2, hs3⟩ := stage3A_ok_inv h3
  obtain ⟨tt1, st1, h1, hs2⟩ := stage2A_ok_inv h2
  obtain ⟨tt0, ft, htt, hft, hp⟩ := stage1A_ok_inv h1
  have hst1 : st1 = mergeStep "track.getSimilar" ft L ⟨[], [], []⟩ := by
    have := congrArg Prod.snd hp; simpa using this
  have hsrc1 : st1.sources = (if ft.isEmpty then [] else ["track.getSimilar"]) := by
    rw [hst1, mergeStep_sources]; simp
  have hatt1 : st1.attempted = ["track.getSimilar"] := by
    rw [hst1, mergeStep_attempted]; simp
  obtain ⟨s2, a2, hsrc2, hatt2, hs2sub, ha2sub⟩ :
      ∃ s2 a2, st2.sources = st1.sources ++ s2 ∧ st2.attempted = st1.attempted ++ a2 ∧
        s2.Sublist ["artist.getSimilar"] ∧ a2.Sublist ["artist.getSimilar"] := by
    rcases hs2 with ⟨_, fa, _, hpp⟩ | ⟨_, hpp⟩
    · have hst2 : st2 = mergeStep "artist.getSimilar" fa L st1 := by
        have := congrArg Prod.snd hpp; simpa using this
      refine ⟨if fa.isEmpty then [] else ["artist.getSimilar"], ["artist.getSimilar"],
        by rw [hst2, mergeStep_sources], by rw [hst2, mergeStep_attempted], ?_, ?_⟩
      · by_cases hfa : fa.isEmpty <;> simp [hfa]
      · simp
    · have hst2 : st2 = st1 := by
        have := congrArg Prod.snd hpp; simpa using this
      exact ⟨[], [], by simp [hst2], by simp [hst2], by simp, by simp⟩
  obtain ⟨s3, a3, hsrc3, hatt3, hs3sub, ha3sub⟩ :
      ∃ s3 a3, st3.sources = st2.sources ++ s3 ∧ st3.attempted = st2.attempted ++ a3 ∧
        s3.Sublist ["tag.getTopTracks"] ∧ a3.Sublist ["tag.getTopTracks"] := by
    rcases hs3 with ⟨_, _, tc, _, hpp⟩ | ⟨_, hpp⟩
    · have hst3 : st3 = mergeStep "tag.getTopTracks" tc L st2 := by
        have := congrArg Prod.snd hpp; simpa using this
      refine ⟨if tc.isEmpty then [] else ["tag.getTopTracks"], ["tag.getTopTracks"],
        by rw [hst3, mergeStep_sources], by rw [hst3, mergeStep_attempted], ?_, ?_⟩
      · by_cases htc : tc.isEmpty <;> simp [htc]
      · simp
    · have hst3 : st3 = st2 := by
        have := congrArg Prod.snd hpp; simpa using this
      exact ⟨[], [], by simp [hst3], by simp [hst3], by simp, by simp⟩
  obtain ⟨s4, a4, hsrc4, hatt4, hs4sub, ha4sub⟩ :
      ∃ s4 a4, st.sources = st3.sources ++ s4 ∧ st.attempted = st3.attempted ++ a4 ∧
        s4.Sublist ["chart.getTopTracks"] ∧ a4.Sublist ["chart.getTopTracks"] := by
    rcases hc with ⟨_, fc, _, hpp⟩ | ⟨_, hpp⟩
    · refine ⟨if fc.isEmpty then [] else ["chart.getTopTracks"], ["chart.getTopTracks"],
        by rw [hpp, mergeStep_sources], by rw [hpp, mergeStep_attempted], ?_, ?_⟩
      · by_cases hfc : fc.isEmpty <;> simp [hfc]
      · simp
    · exact ⟨[], [], by simp [hpp], by simp [hpp], by simp, by simp⟩
  refine ⟨ft, s2, s3, s4, a2, a3, a4, hft, ?_, ?_, hs2sub, hs3sub, hs4sub,
    ha2sub, ha3sub, ha4sub⟩
  · rw [hsrc4, hsrc3, hsrc2, hsrc1]
  · rw [hatt4, hatt3, hatt2, hatt1]

theorem runFetch_ok_of_ne {α : Type} (f : Fetch (List α)) (h : f ≠ .otherExc) :
    ∃ l, runFetch f = .ok l := by
  cases f with
  | ok xs => exact ⟨xs, rfl⟩
  | reqExc => exact ⟨[], rfl⟩
  | otherExc => exact absurd rfl h

theorem tagLoop_ok (fetch : String → Fetch (List Track)) (L : Nat)
    (h : ∀ tag, fetch tag ≠ .otherExc) :
    ∀ (tags : List String) (acc : List Track), ∃ l, tagLoop fetch L tags acc = .ok l := by
  intro tags
  induction tags with
  | nil => intro acc; exact ⟨acc, rfl⟩
  | cons tag rest ih =>
    intro acc
    by_cases hl : L ≤ acc.length
    · exact ⟨acc, by simp [tagLoop, hl]⟩
    · rcases hf : fetch tag with l | _ | _
      · obtain ⟨r, hr⟩ := ih (mergeUniqueTracks acc l L)
        exact ⟨r, by simp [tagLoop, hl, hf, hr]⟩
      · obtain ⟨r, hr⟩ := ih acc
        exact ⟨r, by simp [tagLoop, hl, hf, hr]⟩
      · exact absurd hf (h tag)

theorem cascadeCore_ok_of_noCrash (env : FetchEnv) (L chartGate : Nat)
    (h : env.noCrash) : ∃ st, cascadeCore env L chartGate = .ok st := by
  obtain ⟨h1, h2, h3, h4, h5⟩ := h
  obtain ⟨tt, htt⟩ := runFetch_ok_of_ne env.topTags h1
  obtain ⟨ft, hft⟩ := runFetch_ok_of_ne env.fromTrack h2
  obtain ⟨fa, hfa⟩ := runFetch_ok_of_ne env.fromArtist h3
  obtain ⟨fc, hfc⟩ := runFetch_ok_of_ne env.fromChart h4
  have hs1 : stage1A (runFetch env.topTags) (runFetch env.fromTrack) L =
      .ok (tt, mergeStep "track.getSimilar" ft L ⟨[], [], []⟩) := by
    rw [htt, hft]; rfl
  set st1 := mergeStep "track.getSimilar" ft L ⟨[], [], []⟩ with hst1
  have hs2 : ∃ st2, stage2A (stage1A (runFetch env.topTags) (runFetch env.fromTrack) L)
      (runFetch env.fromArtist) L = .ok (tt, st2) := by
    rw [hs1]
    by_cases hg : st1.tracks.length < L
    · exact ⟨mergeStep "artist.getSimilar" fa L st1, by simp [stage2A, hg, hfa]⟩
    · exact ⟨st1, by simp [stage2A, hg]⟩
  obtain ⟨st2, hs2⟩ := hs2
  have hs3 : ∃ st3, stage3A (stage2A (stage1A (runFetch env.topTags)
      (runFetch env.fromTrack) L) (runFetch env.fromArtist) L) env.fromTag L =
      .ok (tt, st3) := by
    rw [hs2]
    by_cases hg : st2.tracks.length < L ∧ tt ≠ []
    · obtain ⟨tc, htc⟩ := tagLoop_ok env.fromTag L h5 tt []
      exact ⟨mergeStep "tag.getTopTracks" tc L st2, by rw [stage3A, if_pos hg, htc]⟩
    · exact ⟨st2, by rw [stage3A, if_neg hg]⟩
  obtain ⟨st3, hs3⟩ := hs3
  rw [cascadeCore]
  rw [hs3]
  by_cases hg : st3.tracks.length < chartGate
  · exact ⟨mergeStep "chart.getTopTracks" fc L st3, by simp [chartStepA, hg, hfc]⟩
  · exact ⟨st3, by simp [chartStepA, hg]⟩

theorem exceptMap_ok {α β : Type} {f : α → β} {e : Except Unit α} {b : β} :
    e.map f = .ok b ↔ ∃ a, e = .ok a ∧ f a = b := by
  cases e <;> simp [Except.map]

theorem insertKey_self_mem (ks : List (String × String)) (k : String × String) :
    k ∈ insertKey ks k := by
  by_cases h : k ∈ ks <;> simp [insertKey, h]

theorem buildExcludeKeys_seed_mem (artist title : String)
    (rawExclude : List (String × String)) :
    (pyLower (pyStrip artist), pyLower (pyStrip title)) ∈
      buildExcludeKeys artist title rawExclude :=
  insertKey_self_mem _ _

theorem viaArtistLoop_ok (fetch : String → TopTrackResult) :
    ∀ (l : List SimilarArtist) (out : List Track),
      (∀ a ∈ l, ∀ n, a.name = some n → fetch n ≠ .fail ∧ fetch n ≠ .crash) →
      ∃ r, viaArtistLoop fetch l out = .ok r := by
  intro l
  induction l with
  | nil => intro out _; exact ⟨out, rfl⟩
  | cons a l ih =>
    intro out h
    have htail : ∀ a' ∈ l, ∀ n, a'.name = some n → fetch n ≠ .fail ∧ fetch n ≠ .crash :=
      fun a' ha' n hn => h a' (by simp [ha']) n hn
    rcases hname : a.name with _ | n
    · obtain ⟨r, hr⟩ := ih out htail
      exact ⟨r, by simp [viaArtistLoop, hname, hr]⟩
    · by_cases hn : n = ""
      · obtain ⟨r, hr⟩ := ih out htail
        exact ⟨r, by simp [viaArtistLoop, hname, hn, hr]⟩
      · rcases hf : fetch n with _ | _ | _ | tts
        · exact absurd hf (h a (by simp) n hname).1
        · exact absurd hf (h a (by simp) n hname).2
        · obtain ⟨r, hr⟩ := ih out htail
          exact ⟨r, by simp [viaArtistLoop, hname, hn, hf, hr]⟩
        · rcases tts with _ | ⟨t, rest⟩
          · obtain ⟨r, hr⟩ := ih out htail
            exact ⟨r, by simp [viaArtistLoop, hname, hn, hf, hr]⟩
          · obtain ⟨r, hr⟩ := ih
              (out ++ [(⟨t.name, some n, t.url, a.matchScore⟩ : Track)]) htail
            exact ⟨r, by simp [viaArtistLoop, hname, hn, hf, hr]⟩

theorem filterExclude_top3 (ex : List (String × String)) (ts : List Track)
    (h8 : ts.length = 8) (hnd : (ts.map trackKey).Nodup)
    (hsub1 : ex ⊆ (ts.take 3).map trackKey)
    (hsub2 : (ts.take 3).map trackKey ⊆ ex) :
    filterExclude ex 5 ts = ts.drop 3 := by
  have hexmem : ∀ t ∈ ts.take 3, trackKey t ∈ ex :=
    fun t ht => hsub2 (List.mem_map_of_mem _ ht)
  have hndsplit : ((ts.take 3).map trackKey ++ (ts.drop 3).map trackKey).Nodup := by
    rw [← List.map_append, List.take_append_drop]; exact hnd
  have hdisj := (List.nodup_append.mp hndsplit).2.2
  have hnotex : ∀ t ∈ ts.drop 3, trackKey t ∉ ex := by
    intro t ht hin
    exact hdisj (hsub1 hin) (List.mem_map_of_mem _ ht)
  have hlen : (ts.drop 3).length = 5 := by simp [h8]
  calc filterExclude ex 5 ts
      = filterExcludeGo ex 5 [] (ts.take 3 ++ ts.drop 3) := by
        rw [filterExclude, List.take_append_drop]
    _ = filterExcludeGo ex 5 [] (ts.drop 3) :=
        filterExcludeGo_skip ex 5 (ts.take 3) (ts.drop 3) [] hexmem
    _ = [] ++ ts.drop 3 :=
        filterExcludeGo_keepAll ex (ts.drop 3) [] 5 hnotex (by simp [hlen])
    _ = ts.drop 3 := by simp

/-- C9: the artist normalizer cuts multi-artist strings at the
separators and drops featuring clauses: normalizing
"Calvin Harris feat. Rihanna" yields "Calvin Harris", and normalizing
"A & B / C" yields "A". -/
theorem normalize_artist_examples :
    normalizeLastfmArtist "Calvin Harris feat. Rihanna" = "Calvin Harris" ∧
    normalizeLastfmArtist "A & B / C" = "A" := by
  exact ⟨by decide, by decide⟩

/-- C8: re-merging a duplicate-free list into itself leaves it
unchanged, and the merger preserves the relative order of the entries
it keeps (its output is the accumulator followed by a subsequence of
the incoming list). -/
theorem merge_idempotent_order_preserving :
    (∀ (A : List Track) (limit : Nat), (A.map trackKey).Nodup →
        mergeUniqueTracks A A limit = A) ∧
    (∀ (base incoming : List Track) (limit : Nat),
        ∃ S, mergeUniqueTracks base incoming limit = base ++ S ∧ S.Sublist incoming) :=
  ⟨fun A limit _ => mergeUnique_self A limit, mergeUnique_sublist⟩

/-- Witness for C8 at a concrete duplicate-free list. -/
theorem merge_idempotent_order_preserving_witness :
    mergeUniqueTracks [w8Track] [w8Track] 3 = [w8Track] :=
  merge_idempotent_order_preserving.1 [w8Track] 3 (by decide)

/-- C1 counterexample: for an accumulator that already contains two
entries with the same key and exceeds the limit, the merger returns it
unchanged, so the claimed bounds fail for arbitrary accumulators. -/
theorem merge_unbounded_base_counterexample :
    mergeUniqueTracks [c1Track, c1Track] [] 1 = [c1Track, c1Track] ∧
    ¬ ((((mergeUniqueTracks [c1Track, c1Track] [] 1).map trackKey).Nodup) ∧
        (mergeUniqueTracks [c1Track, c1Track] [] 1).length ≤ 1) := by
  exact ⟨by decide, by decide⟩

/-- C1 (amended): whenever the accumulator has pairwise-distinct keys
and length at most the limit, the merger's output has pairwise-distinct
keys and length at most the limit; consequently the tracks list of
every `identify` and every `recommend` response has no duplicate keys
and has length at most 5, the requested limit. -/
theorem merge_bounded_dedup :
    (∀ (base incoming : List Track) (limit : Nat),
        (base.map trackKey).Nodup → base.length ≤ limit →
        (((mergeUniqueTracks base incoming limit).map trackKey).Nodup ∧
          (mergeUniqueTracks base incoming limit).length ≤ limit)) ∧
    (∀ (env : FetchEnv) (r : LastfmBlock), identifyCascade env = .ok r →
        ((r.tracks.map trackKey).Nodup ∧ r.tracks.length ≤ 5)) ∧
    (∀ (env : FetchEnv) (ex : List (String × String)) (r : RecommendOut),
        recommendCascade env ex = .ok r →
        ((r.tracks.map trackKey).Nodup ∧ r.tracks.length ≤ 5)) := by
  refine ⟨mergeUnique_inv, ?_, ?_⟩
  · intro env r hok
    obtain ⟨st, hcore, hmap⟩ := exceptMap_ok.mp hok
    have hinv := cascadeCore_inv hcore
    have : r.tracks = st.tracks := by rw [← hmap]
    rw [this]
    exact hinv
  · intro env ex r hok
    obtain ⟨st, hcore, hmap⟩ := exceptMap_ok.mp hok
    have hinv := cascadeCore_inv hcore
    have htr : r.tracks = filterExclude ex 5 st.tracks := by rw [← hmap]
    obtain ⟨S, hS, hsub⟩ := filterExcludeGo_append ex 5 st.tracks []
    constructor
    · rw [htr]
      have : (filterExclude ex 5 st.tracks).map trackKey = S.map trackKey := by
        rw [filterExclude, hS]; simp
      rw [this]
      exact hinv.1.sublist (hsub.map trackKey)
    · rw [htr]
      exact filterExcludeGo_length ex 5 st.tracks [] (by simp)

/-- Witness for the amended C1 at a concrete accumulator and limit. -/
theorem merge_bounded_dedup_witness :
    (((mergeUniqueTracks [w1TrackA] [w1TrackB] 2).map trackKey).Nodup) ∧
      (mergeUniqueTracks [w1TrackA] [w1TrackB] 2).length ≤ 2 :=
  merge_bounded_dedup.1 [w1TrackA] [w1TrackB] 2 (by decide) (by decide)

/-- C10: in both endpoints, `similar_source` is "merged" when more than
one tier was recorded, the single tier's label when exactly one was
recorded, and "none" when no tier was recorded. -/
theorem similar_source_field :
    (∀ l : List String,
        (l = [] → similarSourceOf l = "none") ∧
        (∀ s, l = [s] → similarSourceOf l = s) ∧
        (1 < l.length → similarSourceOf l = "merged")) ∧
    (∀ (env : FetchEnv) (r : LastfmBlock), identifyCascade env = .ok r →
        r.similarSource = similarSourceOf r.sources) ∧
    (∀ (env : FetchEnv) (ex : List (String × String)) (r : RecommendOut),
        recommendCascade env ex = .ok r → r.similarSource = similarSourceOf r.sources) := by
  refine ⟨?_, ?_, ?_⟩
  · intro l
    refine ⟨fun h => by simp [h, similarSourceOf], fun s h => by simp [h, similarSourceOf],
      fun h => by simp [similarSourceOf, h]⟩
  · intro env r hok
    obtain ⟨st, _, hmap⟩ := exceptMap_ok.mp hok
    rw [← hmap]
  · intro env ex r hok
    obtain ⟨st, _, hmap⟩ := exceptMap_ok.mp hok
    rw [← hmap]

/-- Witness for C10: a run with no recorded source reports "none". -/
theorem similar_source_field_witness :
    identifyCascade w10Env =
      Except.ok ⟨[], [], ["track.getSimilar", "artist.getSimilar",
        "chart.getTopTracks"], "none"⟩ ∧
    (⟨[], [], ["track.getSimilar", "artist.getSimilar", "chart.getTopTracks"],
        "none"⟩ : LastfmBlock).similarSource =
      similarSourceOf (⟨[], [], ["track.getSimilar", "artist.getSimilar",
        "chart.getTopTracks"], "none"⟩ : LastfmBlock).sources :=
  ⟨rfl, similar_source_field.2.1 w10Env _ rfl⟩

/-- C4: the exclusion set of every `recommend` request contains the
seed's own key even when the caller's exclude list is empty, and the
returned track list never contains a track with the seed's key. -/
theorem seed_always_excluded :
    (∀ (artist title : String) (rawExclude : List (String × String)),
        (pyLower (pyStrip artist), pyLower (pyStrip title)) ∈
          buildExcludeKeys artist title rawExclude) ∧
    (∀ (env : FetchEnv) (artist title : String) (rawExclude : List (String × String))
        (r : RecommendOut), recommendFromRequest env artist title rawExclude = .ok r →
        ∀ t ∈ r.tracks,
          trackKey t ∉ buildExcludeKeys (pyStrip artist) (pyStrip title) rawExclude) ∧
    (∀ (env : FetchEnv) (artist title : String) (rawExclude : List (String × String))
        (r : RecommendOut), recommendFromRequest env artist title rawExclude = .ok r →
        ∀ t ∈ r.tracks,
          trackKey t ≠
            (pyLower (pyStrip (pyStrip artist)), pyLower (pyStrip (pyStrip title)))) := by
  have h2 : ∀ (env : FetchEnv) (artist title : String)
      (rawExclude : List (String × String)) (r : RecommendOut),
      recommendFromRequest env artist title rawExclude = .ok r →
      ∀ t ∈ r.tracks,
        trackKey t ∉ buildExcludeKeys (pyStrip artist) (pyStrip title) rawExclude := by
    intro env artist title raw r hok t ht
    obtain ⟨st, _, hmap⟩ := exceptMap_ok.mp hok
    have htr : r.tracks =
        filterExclude (buildExcludeKeys (pyStrip artist) (pyStrip title) raw) 5
          st.tracks := by rw [← hmap]
    rw [htr] at ht
    exact filterExcludeGo_not_excluded _ 5 st.tracks [] (by simp) t ht
  refine ⟨fun a t raw => buildExcludeKeys_seed_mem _ _ _, h2, ?_⟩
  intro env artist title raw r hok t ht heq
  exact h2 env artist title raw r hok t ht
    (heq ▸ buildExcludeKeys_seed_mem (pyStrip artist) (pyStrip title) raw)

/-- Witness for C4: a concrete request whose returned track differs from
the seed key. -/
theorem seed_always_excluded_witness :
    recommendFromRequest w4Env "Seed Artist" "Seed Song" [] = Except.ok w4Out ∧
    trackKey w4Track ≠
      (pyLower (pyStrip (pyStrip "Seed Artist")), pyLower (pyStrip (pyStrip "Seed Song"))) :=
  ⟨rfl, seed_always_excluded.2.2 w4Env "Seed Artist" "Seed Song" [] w4Out rfl w4Track
    (by decide)⟩

/-- C3: each tier of the exclusion-aware cascade merges against the
over-fetched cap `desired + |ExclusionSet| + 10` (so the pre-filter
accumulator is bounded by it, not by `desired`), the final pass removes
every excluded key and truncates to `desired = 5`; and when the
exclusion set matches exactly the keys of the top 3 tracks of an
unfiltered 8-track cascade result, the returned list is the remaining 5
tracks in their original relative order, none with an excluded key. -/
theorem exclusion_filter_drop :
    (∀ (ex : List (String × String)) (ts : List Track),
        ts.length = 8 → (ts.map trackKey).Nodup →
        ex ⊆ (ts.take 3).map trackKey → (ts.take 3).map trackKey ⊆ ex →
        filterExclude ex 5 ts = ts.drop 3) ∧
    (∀ (env : FetchEnv) (ex : List (String × String)) (r : RecommendOut),
        recommendCascade env ex = .ok r →
        r.tracks = filterExclude ex 5 r.preTracks ∧
        r.preTracks.length ≤ recommendFetchLimit ex ∧
        ∀ t ∈ r.tracks, trackKey t ∉ ex) ∧
    (∀ (env : FetchEnv) (ex : List (String × String)) (r : RecommendOut),
        recommendCascade env ex = .ok r →
        r.preTracks.length = 8 → (r.preTracks.map trackKey).Nodup →
        ex ⊆ (r.preTracks.take 3).map trackKey →
        (r.preTracks.take 3).map trackKey ⊆ ex →
        r.tracks = r.preTracks.drop 3 ∧ r.tracks.length = 5 ∧
          ∀ t ∈ r.tracks, trackKey t ∉ ex) := by
  have h2 : ∀ (env : FetchEnv) (ex : List (String × String)) (r : RecommendOut),
      recommendCascade env ex = .ok r →
      r.tracks = filterExclude ex 5 r.preTracks ∧
      r.preTracks.length ≤ recommendFetchLimit ex ∧
      ∀ t ∈ r.tracks, trackKey t ∉ ex := by
    intro env ex r hok
    obtain ⟨st, hcore, hmap⟩ := exceptMap_ok.mp hok
    have hpre : r.preTracks = st.tracks := by rw [← hmap]
    have htr : r.tracks = filterExclude ex 5 st.tracks := by rw [← hmap]
    refine ⟨by rw [htr, hpre], ?_, ?_⟩
    · rw [hpre]
      exact (cascadeCore_inv hcore).2
    · intro t ht
      rw [htr] at ht
      exact filterExcludeGo_not_excluded _ 5 st.tracks [] (by simp) t ht
  refine ⟨filterExclude_top3, h2, ?_⟩
  intro env ex r hok h8 hnd hsub1 hsub2
  obtain ⟨hfe, _, hnotex⟩ := h2 env ex r hok
  have hdrop : r.tracks = r.preTracks.drop 3 := by
    rw [hfe]
    exact filterExclude_top3 ex r.preTracks h8 hnd hsub1 hsub2
  refine ⟨hdrop, ?_, hnotex⟩
  rw [hdrop]
  simp [h8]

/-- Witness for C3: the concrete 8-track cascade output with its top 3
keys excluded yields exactly the remaining 5 tracks. -/
theorem exclusion_filter_drop_witness :
    filterExclude w3Ex 5 w3Tracks = w3Tracks.drop 3 :=
  exclusion_filter_drop.1 w3Ex w3Tracks (by decide) (by decide) (by decide) (by decide)

/-- C2: `identify` attempts the tiers in the order exact-track,
similar-artist, tag, chart (its attempted list is always an in-order
subsequence of that order, with the exact-track tier unconditional);
and when the exact-track tier returns at least 5 tracks with
pairwise-distinct non-empty keys (limit 5), the recorded sources are
exactly ["track.getSimilar"] and no later tier is attempted. -/
theorem cascade_tier_order :
    (∀ (env : FetchEnv) (r : LastfmBlock), identifyCascade env = .ok r →
        r.attempted.Sublist ["track.getSimilar", "artist.getSimilar",
          "tag.getTopTracks", "chart.getTopTracks"]) ∧
    (∀ (env : FetchEnv) (ts : List Track) (r : LastfmBlock),
        env.fromTrack = .ok ts → (ts.map trackKey).Nodup →
        (∀ t ∈ ts, trackKey t ≠ ("", "")) → 5 ≤ ts.length →
        identifyCascade env = .ok r →
        r.sources = ["track.getSimilar"] ∧ r.attempted = ["track.getSimilar"]) := by
  constructor
  · intro env r hok
    obtain ⟨st, hcore, hmap⟩ := exceptMap_ok.mp hok
    obtain ⟨ft, s2, s3, s4, a2, a3, a4, _, _, hatt, _, _, _, ha2, ha3, ha4⟩ :=
      cascadeCore_shape hcore
    have hratt : r.attempted = st.attempted := by rw [← hmap]
    rw [hratt, hatt]
    have h := (((List.Sublist.refl ["track.getSimilar"]).append ha2).append ha3).append ha4
    simpa using h
  · intro env ts r hft hnd hval hlen hok
    obtain ⟨st, hcore, hmap⟩ := exceptMap_ok.mp hok
    obtain ⟨tt, st3, h3, hc⟩ := chartStepA_ok_inv hcore
    obtain ⟨tt2, st2, h2, hs3⟩ := stage3A_ok_inv h3
    obtain ⟨tt1, st1, h1, hs2⟩ := stage2A_ok_inv h2
    obtain ⟨tt0, ft, htt, hft2, hp⟩ := stage1A_ok_inv h1
    have hfteq : ft = ts := by
      rw [hft] at hft2
      simpa [runFetch] using hft2.symm
    have hst1 : st1 = mergeStep "track.getSimilar" ft 5 ⟨[], [], []⟩ := by
      have := congrArg Prod.snd hp; simpa using this
    have hne : ts.isEmpty = false := by
      cases ts with
      | nil => simp at hlen
      | cons a l => rfl
    have htracks1 : st1.tracks = ts.take 5 := by
      rw [hst1, hfteq, mergeStep_tracks]
      simp only [hne, Bool.false_eq_true, if_false]
      show mergeUniqueTracks [] ts 5 = ts.take 5
      exact mergeUnique_fresh ts 5 hnd hval
    have hlen1 : st1.tracks.length = 5 := by
      rw [htracks1, List.length_take]; omega
    have hng : ¬ st1.tracks.length < 5 := by omega
    have hst2 : st2 = st1 := by
      rcases hs2 with ⟨hlt, _, _, _⟩ | ⟨_, hpp⟩
      · exact absurd hlt hng
      · have := congrArg Prod.snd hpp; simpa using this
    have hst3 : st3 = st2 := by
      rcases hs3 with ⟨hlt, _, _⟩ | ⟨_, hpp⟩
      · rw [hst2] at hlt; exact absurd hlt hng
      · have := congrArg Prod.snd hpp; simpa using this
    have hstf : st = st3 := by
      rcases hc with ⟨hlt, _, _, _⟩ | ⟨_, hpp⟩
      · rw [hst3, hst2] at hlt; exact absurd hlt hng
      · exact hpp
    have hsrc : st.sources = ["track.getSimilar"] := by
      rw [hstf, hst3, hst2, hst1, hfteq, mergeStep_sources]
      simp [hne]
    have hatt : st.attempted = ["track.getSimilar"] := by
      rw [hstf, hst3, hst2, hst1, mergeStep_attempted]
      simp
    constructor
    · have : r.sources = st.sources := by rw [← hmap]
      rw [this, hsrc]
    · have : r.attempted = st.attempted := by rw [← hmap]
      rw [this, hatt]

/-- Witness for C2: a full exact-track tier stops the cascade after
tier one. -/
theorem cascade_tier_order_witness :
    identifyCascade w2Env =
      Except.ok ⟨w2Tracks, ["track.getSimilar"], ["track.getSimilar"],
        "track.getSimilar"⟩ ∧
    (⟨w2Tracks, ["track.getSimilar"], ["track.getSimilar"],
        "track.getSimilar"⟩ : LastfmBlock).sources = ["track.getSimilar"] :=
  ⟨rfl, (cascade_tier_order.2 w2Env w2Tracks
    ⟨w2Tracks, ["track.getSimilar"], ["track.getSimilar"], "track.getSimilar"⟩
    rfl (by decide) (by decide) (by decide) rfl).1⟩

theorem mem_of_sublist_singleton {a b : String} {l : List String}
    (hsub : l.Sublist [b]) (h : a ∈ l) : a = b :=
  List.mem_singleton.mp (hsub.subset h)

theorem cascadeCore_record {env : FetchEnv} {L chartGate : Nat} {st : CascadeOut}
    (h : cascadeCore env L chartGate = .ok st) :
    ∃ ft s2 s3 s4 a2 a3 a4,
      runFetch env.fromTrack = .ok ft ∧
      st.sources = (if ft.isEmpty then [] else ["track.getSimilar"]) ++ s2 ++ s3 ++ s4 ∧
      st.attempted = ["track.getSimilar"] ++ a2 ++ a3 ++ a4 ∧
      s3.Sublist ["tag.getTopTracks"] ∧ a3.Sublist ["tag.getTopTracks"] ∧
      ((a2 = [] ∧ s2 = []) ∨
        (a2 = ["artist.getSimilar"] ∧ ∃ fa, runFetch env.fromArtist = .ok fa ∧
          s2 = if fa.isEmpty then [] else ["artist.getSimilar"])) ∧
      ((a4 = [] ∧ s4 = []) ∨
        (a4 = ["chart.getTopTracks"] ∧ ∃ fc, runFetch env.fromChart = .ok fc ∧
          s4 = if fc.isEmpty then [] else ["chart.getTopTracks"])) := by
  obtain ⟨tt, st3, h3, hc⟩ := chartStepA_ok_inv h
  obtain ⟨tt2, st2, h2, hs3⟩ := stage3A_ok_inv h3
  obtain ⟨tt1, st1, h1, hs2⟩ := stage2A_ok_inv h2
  obtain ⟨tt0, ft, htt, hft, hp⟩ := stage1A_ok_inv h1
  have hst1 : st1 = mergeStep "track.getSimilar" ft L ⟨[], [], []⟩ := by
    have := congrArg Prod.snd hp; simpa using this
  have hsrc1 : st1.sources = (if ft.isEmpty then [] else ["track.getSimilar"]) := by
    rw [hst1, mergeStep_sources]; simp
  have hatt1 : st1.attempted = ["track.getSimilar"] := by
    rw [hst1, mergeStep_attempted]; simp
  obtain ⟨s2, a2, hsrc2, hatt2, hd2⟩ :
      ∃ s2 a2, st2.sources = st1.sources ++ s2 ∧ st2.attempted = st1.attempted ++ a2 ∧
        ((a2 = [] ∧ s2 = []) ∨
          (a2 = ["artist.getSimilar"] ∧ ∃ fa, runFetch env.fromArtist = .ok fa ∧
            s2 = if fa.isEmpty then [] else ["artist.getSimilar"])) := by
    rcases hs2 with ⟨_, fa, hfa, hpp⟩ | ⟨_, hpp⟩
    · have hst2 : st2 = mergeStep "artist.getSimilar" fa L st1 := by
        have := congrArg Prod.snd hpp; simpa using this
      exact ⟨if fa.isEmpty then [] else ["artist.getSimilar"], ["artist.getSimilar"],
        by rw [hst2, mergeStep_sources], by rw [hst2, mergeStep_attempted],
        Or.inr ⟨rfl, fa, hfa, rfl⟩⟩
    · have hst2 : st2 = st1 := by
        have := congrArg Prod.snd hpp; simpa using this
      exact ⟨[], [], by simp [hst2], by simp [hst2], Or.inl ⟨rfl, rfl⟩⟩
  obtain ⟨s3, a3, hsrc3, hatt3, hs3sub, ha3sub⟩ :
      ∃ s3 a3, st3.sources = st2.sources ++ s3 ∧ st3.attempted = st2.attempted ++ a3 ∧
        s3.Sublist ["tag.getTopTracks"] ∧ a3.Sublist ["tag.getTopTracks"] := by
    rcases hs3 with ⟨_, _, tc, _, hpp⟩ | ⟨_, hpp⟩
    · have hst3 : st3 = mergeStep "tag.getTopTracks" tc L st2 := by
        have := congrArg Prod.snd hpp; simpa using this
      refine ⟨if tc.isEmpty then [] else ["tag.getTopTracks"], ["tag.getTopTracks"],
        by rw [hst3, mergeStep_sources], by rw [hst3, mergeStep_attempted], ?_, ?_⟩
      · by_cases htc : tc.isEmpty <;> simp [htc]
      · simp
    · have hst3 : st3 = st2 := by
        have := congrArg Prod.snd hpp; simpa using this
      exact ⟨[], [], by simp [hst3], by simp [hst3], by simp, by simp⟩
  obtain ⟨s4, a4, hsrc4, hatt4, hd4⟩ :
      ∃ s4 a4, st.sources = st3.sources ++ s4 ∧ st.attempted = st3.attempted ++ a4 ∧
        ((a4 = [] ∧ s4 = []) ∨
          (a4 = ["chart.getTopTracks"] ∧ ∃ fc, runFetch env.fromChart = .ok fc ∧
            s4 = if fc.isEmpty then [] else ["chart.getTopTracks"])) := by
    rcases hc with ⟨_, fc, hfc, hpp⟩ | ⟨_, hpp⟩
    · exact ⟨if fc.isEmpty then [] else ["chart.getTopTracks"], ["chart.getTopTracks"],
        by rw [hpp, mergeStep_sources], by rw [hpp, mergeStep_attempted],
        Or.inr ⟨rfl, fc, hfc, rfl⟩⟩
    · exact ⟨[], [], by simp [hpp], by simp [hpp], Or.inl ⟨rfl, rfl⟩⟩
  exact ⟨ft, s2, s3, s4, a2, a3, a4, hft, by rw [hsrc4, hsrc3, hsrc2, hsrc1],
    by rw [hatt4, hatt3, hatt2, hatt1], hs3sub, ha3sub, hd2, hd4⟩

theorem cascadeCore_track_record {env : FetchEnv} {L chartGate : Nat} {st : CascadeOut}
    {ts : List Track} (h : cascadeCore env L chartGate = .ok st)
    (hft : runFetch env.fromTrack = .ok ts) :
    ("track.getSimilar" ∈ st.sources ↔ ts ≠ []) := by
  obtain ⟨ft, s2, s3, s4, a2, a3, a4, hft2, hsrc, hattEq, hs3sub, ha3sub, hd2, hd4⟩ :=
    cascadeCore_record h
  have hs2sub : s2.Sublist ["artist.getSimilar"] := by
    rcases hd2 with ⟨_, hs2⟩ | ⟨_, fa, _, hs2⟩
    · rw [hs2]; exact List.nil_sublist _
    · rw [hs2]; by_cases hfa : fa.isEmpty <;> simp [hfa]
  have hs4sub : s4.Sublist ["chart.getTopTracks"] := by
    rcases hd4 with ⟨_, hs4⟩ | ⟨_, fc, _, hs4⟩
    · rw [hs4]; exact List.nil_sublist _
    · rw [hs4]; by_cases hfc : fc.isEmpty <;> simp [hfc]
  have hfteq : ft = ts := by
    rw [hft] at hft2
    simpa using hft2.symm
  rw [hsrc, hfteq]
  constructor
  · intro hmem hts
    rw [hts] at hmem
    simp only [List.isEmpty_nil, if_true, List.nil_append, List.mem_append] at hmem
    rcases hmem with (hmem | hmem) | hmem
    · exact absurd (mem_of_sublist_singleton hs2sub hmem) (by decide)
    · exact absurd (mem_of_sublist_singleton hs3sub hmem) (by decide)
    · exact absurd (mem_of_sublist_singleton hs4sub hmem) (by decide)
  · intro hts
    have hne : ts.isEmpty = false := by
      cases ts with
      | nil => exact absurd rfl hts
      | cons a l => rfl
    simp [hne]

theorem mem_four_append {x : String} {p1 p2 p3 p4 : List String}
    (h : x ∈ p1 ++ p2 ++ p3 ++ p4) : x ∈ p1 ∨ x ∈ p2 ∨ x ∈ p3 ∨ x ∈ p4 := by
  rcases List.mem_append.mp h with h | h
  · rcases List.mem_append.mp h with h | h
    · rcases List.mem_append.mp h with h | h
      · exact Or.inl h
      · exact Or.inr (Or.inl h)
    · exact Or.inr (Or.inr (Or.inl h))
  · exact Or.inr (Or.inr (Or.inr h))

theorem cascadeCore_artist_record {env : FetchEnv} {L chartGate : Nat} {st : CascadeOut}
    {ts : List Track} (h : cascadeCore env L chartGate = .ok st)
    (hfa : runFetch env.fromArtist = .ok ts)
    (hatt : "artist.getSimilar" ∈ st.attempted) :
    ("artist.getSimilar" ∈ st.sources ↔ ts ≠ []) := by
  obtain ⟨ft, s2, s3, s4, a2, a3, a4, hft2, hsrc, hattEq, hs3sub, ha3sub, hd2, hd4⟩ :=
    cascadeCore_record h
  have ha4sub : a4.Sublist ["chart.getTopTracks"] := by
    rcases hd4 with ⟨ha4, _⟩ | ⟨ha4, _⟩
    · rw [ha4]; exact List.nil_sublist _
    · rw [ha4]
  have hs4sub : s4.Sublist ["chart.getTopTracks"] := by
    rcases hd4 with ⟨_, hs4⟩ | ⟨_, fc, _, hs4⟩
    · rw [hs4]; exact List.nil_sublist _
    · rw [hs4]; by_cases hfc : fc.isEmpty <;> simp [hfc]
  have hifsub : (if ft.isEmpty then ([] : List String)
      else ["track.getSimilar"]).Sublist ["track.getSimilar"] := by
    by_cases hft3 : ft.isEmpty <;> simp [hft3]
  rcases hd2 with ⟨ha2, hs2⟩ | ⟨ha2, fa, hfa2, hs2⟩
  · exfalso
    rw [hattEq, ha2] at hatt
    rcases mem_four_append hatt with hatt | hatt | hatt | hatt
    · exact absurd (List.mem_singleton.mp hatt) (by decide)
    · exact absurd hatt (List.not_mem_nil _)
    · exact absurd (mem_of_sublist_singleton ha3sub hatt) (by decide)
    · exact absurd (mem_of_sublist_singleton ha4sub hatt) (by decide)
  · have hfaeq : fa = ts := by
      rw [hfa] at hfa2
      simpa using hfa2.symm
    rw [hfaeq] at hs2
    rw [hsrc, hs2]
    constructor
    · intro hmem hts
      rw [hts] at hmem
      rcases mem_four_append hmem with hmem | hmem | hmem | hmem
      · exact absurd (mem_of_sublist_singleton hifsub hmem) (by decide)
      · simp at hmem
      · exact absurd (mem_of_sublist_singleton hs3sub hmem) (by decide)
      · exact absurd (mem_of_sublist_singleton hs4sub hmem) (by decide)
    · intro hts
      have hne : ts.isEmpty = false := by
        cases ts with
        | nil => exact absurd rfl hts
        | cons a l => rfl
      rw [hne]
      simp only [Bool.false_eq_true, if_false]
      exact List.mem_append_left _ (List.mem_append_left _
        (List.mem_append_right _ (List.mem_singleton_self _)))

theorem cascadeCore_chart_record {env : FetchEnv} {L chartGate : Nat} {st : CascadeOut}
    {ts : List Track} (h : cascadeCore env L chartGate = .ok st)
    (hfc : runFetch env.fromChart = .ok ts)
    (hatt : "chart.getTopTracks" ∈ st.attempted) :
    ("chart.getTopTracks" ∈ st.sources ↔ ts ≠ []) := by
  obtain ⟨ft, s2, s3, s4, a2, a3, a4, hft2, hsrc, hattEq, hs3sub, ha3sub, hd2, hd4⟩ :=
    cascadeCore_record h
  have ha2sub : a2.Sublist ["artist.getSimilar"] := by
    rcases hd2 with ⟨ha2, _⟩ | ⟨ha2, _⟩
    · rw [ha2]; exact List.nil_sublist _
    · rw [ha2]
  have hs2sub : s2.Sublist ["artist.getSimilar"] := by
    rcases hd2 with ⟨_, hs2⟩ | ⟨_, fa, _, hs2⟩
    · rw [hs2]; exact List.nil_sublist _
    · rw [hs2]; by_cases hfa : fa.isEmpty <;> simp [hfa]
  have hifsub : (if ft.isEmpty then ([] : List String)
      else ["track.getSimilar"]).Sublist ["track.getSimilar"] := by
    by_cases hft3 : ft.isEmpty <;> simp [hft3]
  rcases hd4 with ⟨ha4, hs4⟩ | ⟨ha4, fc, hfc2, hs4⟩
  · exfalso
    rw [hattEq, ha4] at hatt
    rcases mem_four_append hatt with hatt | hatt | hatt | hatt
    · exact absurd (List.mem_singleton.mp hatt) (by decide)
    · exact absurd (mem_of_sublist_singleton ha2sub hatt) (by decide)
    · exact absurd (mem_of_sublist_singleton ha3sub hatt) (by decide)
    · exact absurd hatt (List.not_mem_nil _)
  · have hfceq : fc = ts := by
      rw [hfc] at hfc2
      simpa using hfc2.symm
    rw [hfceq] at hs4
    rw [hsrc, hs4]
    constructor
    · intro hmem hts
      rw [hts] at hmem
      rcases mem_four_append hmem with hmem | hmem | hmem | hmem
      · exact absurd (mem_of_sublist_singleton hifsub hmem) (by decide)
      · exact absurd (mem_of_sublist_singleton hs2sub hmem) (by decide)
      · exact absurd (mem_of_sublist_singleton hs3sub hmem) (by decide)
      · simp at hmem
    · intro hts
      have hne : ts.isEmpty = false := by
        cases ts with
        | nil => exact absurd rfl hts
        | cons a l => rfl
      rw [hne]
      simp only [Bool.false_eq_true, if_false]
      exact List.mem_append_right _ (List.mem_singleton_self _)

/-- C7 (amended): in both endpoints, `sources` lists tiers in attempt
order, each at most once; the exact-track tier, and the similar-artist
and chart tiers whenever attempted, are recorded exactly when their
raw (post-downgrade) fetched list is non-empty — even when every
returned track is a duplicate of already-accumulated tracks; the tag
tier's recording check, however, is on its tier-local merged
accumulator, which can be empty even when its raw per-tag lists are
non-empty. -/
theorem sources_recording :
    (∀ (env : FetchEnv) (r : LastfmBlock), identifyCascade env = .ok r →
        r.sources.Sublist ["track.getSimilar", "artist.getSimilar",
          "tag.getTopTracks", "chart.getTopTracks"]) ∧
    (∀ (env : FetchEnv) (ex : List (String × String)) (r : RecommendOut),
        recommendCascade env ex = .ok r →
        r.sources.Sublist ["track.getSimilar", "artist.getSimilar",
          "tag.getTopTracks", "chart.getTopTracks"]) ∧
    (∀ (env : FetchEnv) (ts : List Track) (r : LastfmBlock),
        runFetch env.fromTrack = .ok ts → identifyCascade env = .ok r →
        ("track.getSimilar" ∈ r.sources ↔ ts ≠ [])) ∧
    (∀ (env : FetchEnv) (ts : List Track) (r : LastfmBlock),
        runFetch env.fromArtist = .ok ts → identifyCascade env = .ok r →
        "artist.getSimilar" ∈ r.attempted →
        ("artist.getSimilar" ∈ r.sources ↔ ts ≠ [])) ∧
    (∀ (env : FetchEnv) (ts : List Track) (r : LastfmBlock),
        runFetch env.fromChart = .ok ts → identifyCascade env = .ok r →
        "chart.getTopTracks" ∈ r.attempted →
        ("chart.getTopTracks" ∈ r.sources ↔ ts ≠ [])) ∧
    (∀ (env : FetchEnv) (ex : List (String × String)) (ts : List Track)
        (r : RecommendOut),
        runFetch env.fromTrack = .ok ts → recommendCascade env ex = .ok r →
        ("track.getSimilar" ∈ r.sources ↔ ts ≠ [])) ∧
    (∀ (env : FetchEnv) (ex : List (String × String)) (ts : List Track)
        (r : RecommendOut),
        runFetch env.fromArtist = .ok ts → recommendCascade env ex = .ok r →
        "artist.getSimilar" ∈ r.attempted →
        ("artist.getSimilar" ∈ r.sources ↔ ts ≠ [])) ∧
    (∀ (env : FetchEnv) (ex : List (String × String)) (ts : List Track)
        (r : RecommendOut),
        runFetch env.fromChart = .ok ts → recommendCascade env ex = .ok r →
        "chart.getTopTracks" ∈ r.attempted →
        ("chart.getTopTracks" ∈ r.sources ↔ ts ≠ [])) := by
  have hords : ∀ {L cg : Nat} (env : FetchEnv) (st : CascadeOut),
      cascadeCore env L cg = .ok st →
      st.sources.Sublist ["track.getSimilar", "artist.getSimilar",
        "tag.getTopTracks", "chart.getTopTracks"] := by
    intro L cg env st hcore
    obtain ⟨ft, s2, s3, s4, a2, a3, a4, _, hsrc, _, hs2, hs3, hs4, _, _, _⟩ :=
      cascadeCore_shape hcore
    rw [hsrc]
    have h1 : (if ft.isEmpty then ([] : List String)
        else ["track.getSimilar"]).Sublist ["track.getSimilar"] := by
      by_cases h : ft.isEmpty <;> simp [h]
    have h := ((h1.append hs2).append hs3).append hs4
    simpa using h
  refine ⟨?_, ?_, ?_, ?_, ?_, ?_, ?_, ?_⟩
  · intro env r hok
    obtain ⟨st, hcore, hmap⟩ := exceptMap_ok.mp hok
    have hrs : r.sources = st.sources := by rw [← hmap]
    rw [hrs]; exact hords env st hcore
  · intro env ex r hok
    obtain ⟨st, hcore, hmap⟩ := exceptMap_ok.mp hok
    have hrs : r.sources = st.sources := by rw [← hmap]
    rw [hrs]; exact hords env st hcore
  · intro env ts r hft hok
    obtain ⟨st, hcore, hmap⟩ := exceptMap_ok.mp hok
    have hrs : r.sources = st.sources := by rw [← hmap]
    rw [hrs]; exact cascadeCore_track_record hcore hft
  · intro env ts r hfa hok hatt
    obtain ⟨st, hcore, hmap⟩ := exceptMap_ok.mp hok
    have hrs : r.sources = st.sources := by rw [← hmap]
    have hra : r.attempted = st.attempted := by rw [← hmap]
    rw [hrs]; exact cascadeCore_artist_record hcore hfa (hra ▸ hatt)
  · intro env ts r hfc hok hatt
    obtain ⟨st, hcore, hmap⟩ := exceptMap_ok.mp hok
    have hrs : r.sources = st.sources := by rw [← hmap]
    have hra : r.attempted = st.attempted := by rw [← hmap]
    rw [hrs]; exact cascadeCore_chart_record hcore hfc (hra ▸ hatt)
  · intro env ex ts r hft hok
    obtain ⟨st, hcore, hmap⟩ := exceptMap_ok.mp hok
    have hrs : r.sources = st.sources := by rw [← hmap]
    rw [hrs]; exact cascadeCore_track_record hcore hft
  · intro env ex ts r hfa hok hatt
    obtain ⟨st, hcore, hmap⟩ := exceptMap_ok.mp hok
    have hrs : r.sources = st.sources := by rw [← hmap]
    have hra : r.attempted = st.attempted := by rw [← hmap]
    rw [hrs]; exact cascadeCore_artist_record hcore hfa (hra ▸ hatt)
  · intro env ex ts r hfc hok hatt
    obtain ⟨st, hcore, hmap⟩ := exceptMap_ok.mp hok
    have hrs : r.sources = st.sources := by rw [← hmap]
    have hra : r.attempted = st.attempted := by rw [← hmap]
    rw [hrs]; exact cascadeCore_chart_record hcore hfc (hra ▸ hatt)

/-- Witness for the amended C7: the similar-artist tier's raw output is
one track that duplicates the already-accumulated exact-track result —
it changes nothing in the track list, yet the tier is recorded. -/
theorem sources_recording_witness :
    identifyCascade w7Env = Except.ok w7Block ∧
    ("artist.getSimilar" ∈ w7Block.sources ↔ [w7Track] ≠ []) :=
  ⟨rfl, sources_recording.2.2.2.1 w7Env [w7Track] w7Block rfl rfl (by decide)⟩

/-- C7 counterexample: under `c7Env` the tag tier's raw fetched list is
non-empty (one track with the empty key), the tier is attempted, yet
"tag.getTopTracks" is not recorded in `sources`. -/
theorem tag_tier_raw_nonempty_not_recorded :
    c7Env.fromTag "rock" = Fetch.ok [⟨some "", some "", none, none⟩] ∧
    identifyCascade c7Env = Except.ok c7Block ∧
    c7Block.sources = [] ∧ "tag.getTopTracks" ∈ c7Block.attempted :=
  ⟨rfl, rfl, rfl, by decide⟩

/-- C5 (amended): inside the similar-artist tier, an application-level
`error` payload for one artist's top-track lookup is swallowed — the
loop continues exactly as if that artist were absent — and when no
sub-request fails at transport level or returns a malformed payload
the tier always returns normally; a transport-level sub-failure,
however, propagates out of the helper as a `RequestException`
(aborting the tier), and a malformed sub-payload raises outside the
`RequestException` class (aborting the whole request). -/
theorem artist_subfailure_isolation :
    (∀ (fetch : String → TopTrackResult) (a : SimilarArtist)
        (rest : List SimilarArtist) (out : List Track) (n : String),
        a.name = some n → fetch n = .errPayload →
        viaArtistLoop fetch (a :: rest) out = viaArtistLoop fetch rest out) ∧
    (∀ (fetch : String → TopTrackResult) (artists : List SimilarArtist) (limit : Nat),
        (∀ a ∈ artists.take limit, ∀ n, a.name = some n →
          fetch n ≠ .fail ∧ fetch n ≠ .crash) →
        ∃ l, lastfmGetSimilarViaArtist artists fetch limit = .ok l) ∧
    (∀ (fetch : String → TopTrackResult) (a : SimilarArtist)
        (rest : List SimilarArtist) (out : List Track) (n : String),
        a.name = some n → n ≠ "" → fetch n = .fail →
        viaArtistLoop fetch (a :: rest) out = .reqExc) ∧
    (∀ (fetch : String → TopTrackResult) (a : SimilarArtist)
        (rest : List SimilarArtist) (out : List Track) (n : String),
        a.name = some n → n ≠ "" → fetch n = .crash →
        viaArtistLoop fetch (a :: rest) out = .otherExc) := by
  refine ⟨?_, ?_, ?_, ?_⟩
  · intro fetch a rest out n hname hfetch
    by_cases hn : n = ""
    · simp [viaArtistLoop, hname, hn]
    · simp [viaArtistLoop, hname, hn, hfetch]
  · intro fetch artists limit h
    exact viaArtistLoop_ok fetch (artists.take limit) [] h
  · intro fetch a rest out n hname hn hfetch
    simp [viaArtistLoop, hname, hn, hfetch]
  · intro fetch a rest out n hname hn hfetch
    simp [viaArtistLoop, hname, hn, hfetch]

/-- Witness for the amended C5: an `error`-payload artist drops out
without affecting the rest of the loop. -/
theorem artist_subfailure_isolation_witness :
    viaArtistLoop w5Fetch [w5Bad, w5Good] [] = viaArtistLoop w5Fetch [w5Good] [] :=
  artist_subfailure_isolation.1 w5Fetch w5Bad [w5Good] [] "Bad Artist" rfl rfl

/-- C5 counterexample: a transport-level failure of the first artist's
top-track sub-request makes the whole helper raise, so the second
artist's contribution — which the helper would return when the first
artist is absent — is dropped and the tier aborts. -/
theorem artist_transport_subfailure_aborts :
    lastfmGetSimilarViaArtist
        [⟨some "Artist One", some "0.9"⟩, ⟨some "Artist Two", some "0.8"⟩] c5Fetch 5 =
      Fetch.reqExc ∧
    lastfmGetSimilarViaArtist [⟨some "Artist Two", some "0.8"⟩] c5Fetch 5 =
      Fetch.ok [⟨some "Song Two", some "Artist Two", some "url2", some "0.8"⟩] :=
  ⟨rfl, rfl⟩

/-- C6 (amended): a tier fetch that raises inside the
`requests.RequestException` class — transport errors and the
application-level `error` payloads the helpers convert to
`requests.HTTPError` — is caught at the tier boundary and is
indistinguishable from the tier returning zero tracks, and a request
none of whose fetches raises outside that class always produces a
response; a fetch raising outside the class aborts the request. -/
theorem tier_failures_downgraded :
    (∀ env : FetchEnv, env.noCrash → ∃ r, identifyCascade env = Except.ok r) ∧
    (∀ (env : FetchEnv) (ex : List (String × String)), env.noCrash →
        ∃ r, recommendCascade env ex = Except.ok r) ∧
    (∀ env : FetchEnv, identifyCascade { env with fromTrack := .reqExc } =
        identifyCascade { env with fromTrack := .ok [] }) ∧
    (∀ env : FetchEnv, identifyCascade { env with fromArtist := .reqExc } =
        identifyCascade { env with fromArtist := .ok [] }) ∧
    (∀ env : FetchEnv, identifyCascade { env with fromChart := .reqExc } =
        identifyCascade { env with fromChart := .ok [] }) ∧
    (∀ env : FetchEnv, identifyCascade { env with topTags := .reqExc } =
        identifyCascade { env with topTags := .ok [] }) := by
  refine ⟨?_, ?_, fun env => rfl, fun env => rfl, fun env => rfl, fun env => rfl⟩
  · intro env h
    obtain ⟨st, hst⟩ := cascadeCore_ok_of_noCrash env 5 5 h
    exact ⟨_, by rw [identifyCascade, hst]; rfl⟩
  · intro env ex h
    obtain ⟨st, hst⟩ := cascadeCore_ok_of_noCrash env (recommendFetchLimit ex) 5 h
    exact ⟨_, by rw [recommendCascade, hst]; rfl⟩

/-- Witness for the amended C6 at a concrete crash-free environment. -/
theorem tier_failures_downgraded_witness :
    ∃ r, identifyCascade w6Env = Except.ok r :=
  tier_failures_downgraded.1 w6Env
    ⟨fun h => Fetch.noConfusion h, fun h => Fetch.noConfusion h,
     fun h => Fetch.noConfusion h, fun h => Fetch.noConfusion h,
     fun _ h => Fetch.noConfusion h⟩

/-- C6 counterexample: a malformed response shape — here a JSON array
payload, on which `payload.get` raises `AttributeError` — is not a
`RequestException`, so it escapes the tier boundary and the whole
request aborts instead of being treated as zero tracks. -/
theorem malformed_payload_aborts :
    parseSimilarTracks (Json.arr []) 5 = Fetch.otherExc ∧
    identifyCascade c6Env = Except.error () :=
  ⟨rfl, rfl⟩
